import Mathlib

namespace GN

/-!
Verification development for the ninja binary target writer of the
generate-ninja repository.

The repository ships the writer's unit tests
(`src/tools/gn/ninja_binary_target_writer_unittest.cc`); the writer itself is
not part of the source tree given here, so the emission pipeline below is
modelled from the specification (spec.md) and anchored, edge by edge, on the
byte-for-byte expected outputs recorded in those unit tests.  The model
produces structured build edges (outputs, rule, plain inputs, implicit `|`
inputs, order-only `||` inputs, per-edge variables) plus a structured render
of the per-target section layout, mirroring the text format the tests pin
down.
-/

/-- Language of a compiled source: C, C++ or assembly. -/
inductive Lang where
  | c
  | cxx
  | asm
deriving DecidableEq, Repr

/-- What the source classifier decides about one source file (spec 4.1). -/
inductive SourceKind where
  | compileC
  | compileCxx
  | compileAsm
  | passThrough
  | moduleDef
  | ignored
deriving DecidableEq, Repr

/-- A source-root-relative file `//dir/stem.ext`.  `dir` is empty for files
directly under the source root. -/
structure SourceFile where
  dir : String
  stem : String
  ext : String
deriving DecidableEq, Repr

/-- Precompiled-header mode of a compiler tool (spec 4.3). -/
inductive PchMode where
  | noPch
  | msvc
  | gcc
deriving DecidableEq, Repr

/-- Modelled from the spec: the toolchain as consumed by the writer (the Tool
and Toolchain classes are not in the given source tree).  `isDefault` tells
whether this is the build's default toolchain; a non-default toolchain places
its outputs under a subdirectory carrying its name and prefixes its rule
names with its name (as exhibited by the `withpch` toolchain in the tests);
`asmExts` is the configured set of assembly source extensions; `ccPch`/
`cxxPch` are the precompiled-header modes of the CC/CXX tools. -/
structure Toolchain where
  name : String
  isDefault : Bool
  asmExts : List String
  ccPch : PchMode
  cxxPch : PchMode
deriving DecidableEq, Repr

/-- Output-directory chunk of a non-default toolchain (`"withpch/"`), empty
for the default toolchain. -/
def Toolchain.subdir (tc : Toolchain) : String :=
  if tc.isDefault then "" else tc.name ++ "/"

/-- Rule-name chunk of a non-default toolchain (`"withpch_"`), empty for the
default toolchain. -/
def Toolchain.rulePfx (tc : Toolchain) : String :=
  if tc.isDefault then "" else tc.name ++ "_"

/-- Precompiled-header mode of the tool compiling language `l`. -/
def Toolchain.pchModeFor (tc : Toolchain) : Lang → PchMode
  | .c => tc.ccPch
  | .cxx => tc.cxxPch
  | .asm => .noPch

/-- Output kind of a target (spec data model). -/
inductive OutputType where
  | executable
  | sharedLibrary
  | staticLibrary
  | loadableModule
  | sourceSet
  | actionForeach
deriving DecidableEq, Repr

mutual

/-- A resolved build target together with its dependency edges.  Field order:
directory, short name, output kind, declared sources in order, public deps,
data deps, output-extension override (`none` = unset, `some ""` = explicitly
empty), complete-static-lib flag, per-target C flags, per-target C++ flags,
precompiled-header path, precompiled-header source. -/
inductive Target where
  | mk (dir name : String) (outputType : OutputType) (sources : List SourceFile)
       (publicDeps : TargetList) (dataDeps : TargetList)
       (extensionOverride : Option String) (completeStaticLib : Bool)
       (cflagsC cflagsCC : List String)
       (pchHeader : Option String) (pchSource : Option SourceFile)

/-- A dependency-edge list in declaration order. -/
inductive TargetList where
  | nil
  | cons (t : Target) (ts : TargetList)
end

def Target.dir : Target → String
  | .mk d _ _ _ _ _ _ _ _ _ _ _ => d

def Target.name : Target → String
  | .mk _ n _ _ _ _ _ _ _ _ _ _ => n

def Target.outputType : Target → OutputType
  | .mk _ _ ot _ _ _ _ _ _ _ _ _ => ot

def Target.sources : Target → List SourceFile
  | .mk _ _ _ ss _ _ _ _ _ _ _ _ => ss

def Target.publicDeps : Target → TargetList
  | .mk _ _ _ _ pd _ _ _ _ _ _ _ => pd

def Target.dataDeps : Target → TargetList
  | .mk _ _ _ _ _ dd _ _ _ _ _ _ => dd

def Target.extensionOverride : Target → Option String
  | .mk _ _ _ _ _ _ oe _ _ _ _ _ => oe

def Target.completeStaticLib : Target → Bool
  | .mk _ _ _ _ _ _ _ c _ _ _ _ => c

def Target.cflagsC : Target → List String
  | .mk _ _ _ _ _ _ _ _ fc _ _ _ => fc

def Target.cflagsCC : Target → List String
  | .mk _ _ _ _ _ _ _ _ _ fcc _ _ => fcc

def Target.pchHeader : Target → Option String
  | .mk _ _ _ _ _ _ _ _ _ _ ph _ => ph

def Target.pchSource : Target → Option SourceFile
  | .mk _ _ _ _ _ _ _ _ _ _ _ ps => ps

/-- The `lib` name-prefixing rule for the library output kinds (spec 4.4). -/
def outputNameOf (ot : OutputType) (name : String) : String :=
  match ot with
  | .sharedLibrary | .staticLibrary | .loadableModule => "lib" ++ name
  | _ => name

/-- `target_output_name`: the short name, `lib`-prefixed for library kinds. -/
def Target.outputName (t : Target) : String :=
  outputNameOf t.outputType t.name

/-- `"/dir"` when `dir` is nonempty, empty otherwise; the glue used when a
source-root-relative directory is appended to a path. -/
def dirPart (d : String) : String :=
  if d = "" then "" else "/" ++ d

/-- A source path rebased from the source root to the build directory
(`//out/Debug/` in the tests), e.g. `../../foo/input1.cc`. -/
def rebase (f : SourceFile) : String :=
  "../.." ++ dirPart f.dir ++ "/" ++ f.stem ++ "." ++ f.ext

/-- `source_out_dir` of a source: the object tree mirrors the source tree
under `obj/`, below the toolchain subdirectory. -/
def sourceOutDir (tc : Toolchain) (f : SourceFile) : String :=
  tc.subdir ++ "obj" ++ dirPart f.dir

/-- The object path of a compiled source:
`{source_out_dir}/{target_output_name}.{source_name_part}.o` (the tool's
output template in the tests); the embedded target output name is what keeps
objects of different targets apart. -/
def objPath (tc : Toolchain) (outName : String) (f : SourceFile) : String :=
  sourceOutDir tc f ++ "/" ++ outName ++ "." ++ f.stem ++ ".o"

/-- The extension-driven source classifier (spec 4.1).  Matching is literal
string comparison, hence case-sensitive: `.S` is in no recognized set and is
ignored while `.s` is assembly. -/
def classify (tc : Toolchain) (f : SourceFile) : SourceKind :=
  if f.ext = "cc" ∨ f.ext = "cpp" ∨ f.ext = "cxx" then .compileCxx
  else if f.ext = "c" then .compileC
  else if f.ext ∈ tc.asmExts then .compileAsm
  else if f.ext = "o" ∨ f.ext = "obj" then .passThrough
  else if f.ext = "def" then .moduleDef
  else .ignored

/-- The language a classification compiles as, if any. -/
def SourceKind.lang : SourceKind → Option Lang
  | .compileC => some .c
  | .compileCxx => some .cxx
  | .compileAsm => some .asm
  | _ => none

/-- Base rule name of the compiler tool for a language. -/
def langTool : Lang → String
  | .c => "cc"
  | .cxx => "cxx"
  | .asm => "asm"

/-- The language tag embedded in per-language precompiled-header artifact
names (`_c`/`_cc`, `.precompile.c.o`/`.precompile.cc.o`). -/
def langTag : Lang → String
  | .c => "c"
  | .cxx => "cc"
  | .asm => "asm"

/-- Name of the per-language compiler-flags variable. -/
def langFlagsVar : Lang → String
  | .c => "cflags_c"
  | .cxx => "cflags_cc"
  | .asm => "asmflags"

/-- The target's own flags for a language. -/
def userFlags (t : Target) : Lang → List String
  | .c => t.cflagsC
  | .cxx => t.cflagsCC
  | .asm => []

-- Sanity examples for the classifier, matching the SourceSet unit test.

def testTC : Toolchain :=
  { name := "", isDefault := true, asmExts := ["asm", "s", "arm"],
    ccPch := .noPch, cxxPch := .noPch }

/-! ## Build edges -/

/-- One emitted ninja build edge:
`build OUTS: RULE INS | IMPLICIT || ORDER-ONLY` plus its indented variable
overrides. -/
structure BuildEdge where
  outs : List String
  rule : String
  ins : List String
  implicitIns : List String
  orderOnlyIns : List String
  edgeVars : List (String × String)
deriving DecidableEq, Repr

/-- Stamp-file path of a target producing one (source sets, actions). -/
def stampPath (tc : Toolchain) (t : Target) : String :=
  tc.subdir ++ "obj" ++ dirPart t.dir ++ "/" ++ t.name ++ ".stamp"

/-- Modelled from the spec: whether a dependency is a hard dependency whose
stamp every compile edge of the depending target must wait on (actions are;
source sets and linked targets are not, as the `ProductExtensionAndInputDeps`
and `SourceSetDataDeps` tests exhibit). -/
def isHardDep (t : Target) : Bool :=
  t.outputType == .actionForeach

/-- Order-only inputs placed on every compile edge of a target: the stamp
files of its hard (action) dependencies. -/
def hardDepStamps (tc : Toolchain) : TargetList → List String
  | .nil => []
  | .cons d ds =>
      (if isHardDep d then [stampPath tc d] else []) ++ hardDepStamps tc ds

/-! ## Precompiled headers (spec 4.3) -/

/-- The declared precompiled header and precompiled source, when both are
present (the subsystem is activated only then). -/
def pchConfigured (t : Target) : Option (String × SourceFile) :=
  match t.pchHeader, t.pchSource with
  | some h, some s => some (h, s)
  | _, _ => none

/-- Does the source list hold a compiled source of language `l`? -/
def hasCompiledLang (tc : Toolchain) (ss : List SourceFile) (l : Lang) : Bool :=
  ss.any fun f => (classify tc f).lang == some l

/-- Shared per-language `.pch` path referenced by the MSVC use-PCH flag:
`{target_out_dir}/{target_name}_{lang}.pch`. -/
def msvcPchFile (tc : Toolchain) (t : Target) (l : Lang) : String :=
  tc.subdir ++ "obj" ++ dirPart t.dir ++ "/" ++ t.name ++ "_" ++ langTag l ++ ".pch"

/-- Object file produced by the per-language MSVC PCH compile edge:
`{source_out_dir(pch source)}/{target_output_name}.{stem}.{lang}.o`. -/
def msvcPchObj (tc : Toolchain) (t : Target) (ps : SourceFile) (l : Lang) : String :=
  sourceOutDir tc ps ++ "/" ++ t.outputName ++ "." ++ ps.stem ++ "." ++ langTag l ++ ".o"

/-- GCC per-language precompiled-header output path without its `.gch`
extension (this is what the `-include` use flag names). -/
def gccPchBase (tc : Toolchain) (t : Target) (ps : SourceFile) (l : Lang) : String :=
  sourceOutDir tc ps ++ "/" ++ t.outputName ++ "." ++ ps.stem ++ "." ++ ps.ext
    ++ "-" ++ langTag l

/-- GCC per-language `.gch` output path. -/
def gccPchOut (tc : Toolchain) (t : Target) (ps : SourceFile) (l : Lang) : String :=
  gccPchBase tc t ps l ++ ".gch"

/-- Output of the PCH edge a language-`l` compile must explicitly depend on,
if the precompiled-header subsystem is active for that language. -/
def pchDepOut (tc : Toolchain) (t : Target) (l : Lang) : Option String :=
  match pchConfigured t, tc.pchModeFor l with
  | some (_, ps), .msvc => some (msvcPchObj tc t ps l)
  | some (_, ps), .gcc => some (gccPchOut tc t ps l)
  | _, _ => none

/-- Use-PCH flags appended to the per-language flags variable of the target's
variable block: `/Fp<pch> /Yu<header>` for MSVC, `-include <gch base>` for
GCC. -/
def pchUseFlags (tc : Toolchain) (t : Target) (l : Lang) : List String :=
  match pchConfigured t, tc.pchModeFor l with
  | some (h, _), .msvc => ["/Fp" ++ msvcPchFile tc t l, "/Yu" ++ h]
  | some (_, ps), .gcc => ["-include " ++ gccPchBase tc t ps l]
  | _, _ => []

/-- The language-forcing flag passed on a GCC PCH edge, since a header's
extension does not say which language to precompile it as. -/
def gccLangFlag : Lang → String
  | .c => "-x c-header"
  | .cxx => "-x c++-header"
  | .asm => ""

/-- The MSVC-style PCH compile edge for language `l`: compiles the declared
precompiled source with a create-PCH flag appended only on this edge. -/
def msvcPchEdge (tc : Toolchain) (t : Target) (h : String) (ps : SourceFile)
    (l : Lang) : BuildEdge :=
  { outs := [msvcPchObj tc t ps l]
    rule := tc.rulePfx ++ langTool l
    ins := [rebase ps]
    implicitIns := []
    orderOnlyIns := hardDepStamps tc t.publicDeps
    edgeVars := [("source_name_part", ps.stem),
                 ("source_out_dir", sourceOutDir tc ps),
                 (langFlagsVar l, "$\x7b" ++ langFlagsVar l ++ "\x7d /Yc" ++ h)] }

/-- The GCC-style PCH compile edge for language `l`: compiles the declared
header into a `.gch`, forcing the language with `-x`. -/
def gccPchEdge (tc : Toolchain) (t : Target) (ps : SourceFile) (l : Lang) :
    BuildEdge :=
  { outs := [gccPchOut tc t ps l]
    rule := tc.rulePfx ++ langTool l
    ins := [rebase ps]
    implicitIns := []
    orderOnlyIns := hardDepStamps tc t.publicDeps
    edgeVars := [("source_name_part", ps.stem),
                 ("source_out_dir", sourceOutDir tc ps),
                 (langFlagsVar l,
                  String.intercalate " " (userFlags t l ++ [gccLangFlag l]))] }

/-- PCH edges for one language: emitted only when the subsystem is configured,
the tool has a PCH mode and the language has compiled sources present. -/
def pchEdgesFor (tc : Toolchain) (t : Target) (l : Lang) : List BuildEdge :=
  if hasCompiledLang tc t.sources l then
    match pchConfigured t, tc.pchModeFor l with
    | some (h, ps), .msvc => [msvcPchEdge tc t h ps l]
    | some (_, ps), .gcc => [gccPchEdge tc t ps l]
    | _, _ => []
  else []

/-- All PCH edges of a target, C before C++ (the emission order the
`WinPrecompiledHeaders` test records). -/
def pchEdgeList (tc : Toolchain) (t : Target) : List BuildEdge :=
  pchEdgesFor tc t .c ++ pchEdgesFor tc t .cxx

/-- MSVC precompiled object files for one language, to be appended to a
source set's stamp inputs (GCC `.gch` outputs are not objects and are not
appended). -/
def msvcPchObjsFor (tc : Toolchain) (t : Target) (l : Lang) : List String :=
  if hasCompiledLang tc t.sources l then
    match pchConfigured t, tc.pchModeFor l with
    | some (_, ps), .msvc => [msvcPchObj tc t ps l]
    | _, _ => []
  else []

/-- All MSVC precompiled object files of a target, C before C++. -/
def msvcPchObjs (tc : Toolchain) (t : Target) : List String :=
  msvcPchObjsFor tc t .c ++ msvcPchObjsFor tc t .cxx

/-! ## Per-source compile edges and object contributions -/

/-- What one source contributes to the target's link/stamp input list: the
compiled object path for compiled kinds, the original (rebased) path for
pass-through objects, nothing for definition files and ignored sources. -/
def objContribution (tc : Toolchain) (outName : String) (f : SourceFile) :
    Option String :=
  match classify tc f with
  | .compileC | .compileCxx | .compileAsm => some (objPath tc outName f)
  | .passThrough => some (rebase f)
  | .moduleDef => none
  | .ignored => none

/-- Ordered object contributions of a source list. -/
def ownObjectsOf (tc : Toolchain) (outName : String) (ss : List SourceFile) :
    List String :=
  ss.filterMap (objContribution tc outName)

/-- Ordered object contributions of the target's own sources. -/
def ownObjects (tc : Toolchain) (t : Target) : List String :=
  ownObjectsOf tc t.outputName t.sources

/-- Module-definition (`.def`) sources, rebased: they become implicit link
inputs rather than compiled objects. -/
def moduleDefs (tc : Toolchain) (t : Target) : List String :=
  t.sources.filterMap fun f =>
    match classify tc f with
    | .moduleDef => some (rebase f)
    | _ => none

/-- The ordinary compile edge for one source, when its classification
compiles; carries an explicit dependency on the language's PCH output when
one is active and an order-only input on each hard dependency's stamp. -/
def compileEdgeFor (tc : Toolchain) (t : Target) (f : SourceFile) :
    Option BuildEdge :=
  match (classify tc f).lang with
  | none => none
  | some l =>
      some { outs := [objPath tc t.outputName f]
             rule := tc.rulePfx ++ langTool l
             ins := [rebase f]
             implicitIns := (pchDepOut tc t l).toList
             orderOnlyIns := hardDepStamps tc t.publicDeps
             edgeVars := [("source_name_part", f.stem),
                          ("source_out_dir", sourceOutDir tc f)] }

/-- Modelled from the spec: the duplicate-output detector (spec 4.5)
interleaved with compile-edge emission.  It keeps the set of already assigned
object paths; before emitting a compile edge it checks membership, and on a
collision it records a failure and aborts further emission for the target, so
no edge is written for the colliding source or anything after it.  Returns
the emitted edges and whether a duplicate-output failure was recorded. -/
def compileEdgesGo (tc : Toolchain) (t : Target) :
    List SourceFile → List String → List BuildEdge × Bool
  | [], _ => ([], false)
  | f :: fs, seen =>
      match compileEdgeFor tc t f with
      | none => compileEdgesGo tc t fs seen
      | some e =>
          if objPath tc t.outputName f ∈ seen then ([], true)
          else
            let r := compileEdgesGo tc t fs (objPath tc t.outputName f :: seen)
            (e :: r.1, r.2)

/-- The set (as a list) of object output paths the duplicate-output detector
has assigned after scanning a source list, starting from `seen`: every
compiled source claims its object path. -/
def seenAccum (tc : Toolchain) (t : Target) :
    List SourceFile → List String → List String
  | [], seen => seen
  | f :: fs, seen =>
      match compileEdgeFor tc t f with
      | none => seenAccum tc t fs seen
      | some _ => seenAccum tc t fs (objPath tc t.outputName f :: seen)

/-! ## Dependency flattening (spec 4.2) -/

mutual

/-- The transitively flattened object list a target hands to the nearest
linking dependent: its own objects first, then every source-set public
dependency's flattened objects, in declaration order. -/
def flatObjs (tc : Toolchain) : Target → List String
  | .mk _ name ot srcs pdeps _ _ _ _ _ _ _ =>
      ownObjectsOf tc (outputNameOf ot name) srcs ++ flatObjsDeps tc pdeps

/-- Flattened objects contributed by a dependency list: source sets splice in
their own flattened list, every other kind stops the recursion and
contributes no objects here. -/
def flatObjsDeps (tc : Toolchain) : TargetList → List String
  | .nil => []
  | .cons d ds =>
      (match d with
       | .mk _ _ .sourceSet _ _ _ _ _ _ _ _ _ => flatObjs tc d
       | _ => []) ++ flatObjsDeps tc ds
end

/-- Default `output_extension` per output kind on the reference platform. -/
def defaultExtensionFor : OutputType → String
  | .sharedLibrary => ".so"
  | .loadableModule => ".so"
  | _ => ""

/-- The effective output extension: an explicitly empty override behaves like
an unset one and falls back to the toolchain default (the
`EmptyProductExtension` test pins this down); a nonempty override `so.6` is
used as `.so.6`. -/
def effectiveExtension (t : Target) : String :=
  match t.extensionOverride with
  | none => defaultExtensionFor t.outputType
  | some e => if e = "" then defaultExtensionFor t.outputType else "." ++ e

/-- The primary output of a target, as its dependents name it: the stamp file
for source sets and actions, the linked artifact for linking kinds. -/
def primaryOutput (tc : Toolchain) (t : Target) : String :=
  match t.outputType with
  | .sourceSet => stampPath tc t
  | .actionForeach => stampPath tc t
  | .staticLibrary =>
      tc.subdir ++ "obj" ++ dirPart t.dir ++ "/" ++ t.outputName ++ ".a"
  | _ => "./" ++ t.outputName ++ effectiveExtension t

/-- Order-only inputs contributed by a dependency list to the final
link/stamp edge: each dependency's primary output (a source set's stamp, an
action's stamp, a linked artifact). -/
def depOrderOnlyList (tc : Toolchain) : TargetList → List String
  | .nil => []
  | .cons d ds => primaryOutput tc d :: depOrderOnlyList tc ds

/-- Order-only inputs of the final edge: public dependencies' primary
outputs, then data-only dependencies' primary outputs. -/
def finalOrderOnly (tc : Toolchain) (t : Target) : List String :=
  depOrderOnlyList tc t.publicDeps ++ depOrderOnlyList tc t.dataDeps

/-- `ldflags` of a link edge: the module-definition flag per `.def` source
(library directories and the like are outside the claims' scope). -/
def ldflagsVal (tc : Toolchain) (t : Target) : String :=
  String.intercalate " " ((moduleDefs tc t).map fun p => "/DEF:" ++ p)

/-- Base rule name of the final edge per output kind. -/
def linkRuleBase : OutputType → String
  | .executable => "link"
  | .sharedLibrary => "solink"
  | .loadableModule => "solink_module"
  | .staticLibrary => "alink"
  | _ => "stamp"

/-- The final link, archive or stamp edge of a target (spec 4.4):
a source set gets a stamp over its own objects, dependency-flattened objects
and MSVC precompiled objects; linking kinds get their link rule over the
flattened object list with module-definition files as implicit inputs; an
incomplete static library archives only its own objects while a complete one
absorbs the flattened dependency objects exactly as a shared library would. -/
def finalEdgeFor (tc : Toolchain) (t : Target) : Option BuildEdge :=
  match t.outputType with
  | .sourceSet =>
      some { outs := [stampPath tc t]
             rule := tc.rulePfx ++ "stamp"
             ins := ownObjects tc t ++ flatObjsDeps tc t.publicDeps
                      ++ msvcPchObjs tc t
             implicitIns := []
             orderOnlyIns := finalOrderOnly tc t
             edgeVars := [] }
  | .staticLibrary =>
      some { outs := [primaryOutput tc t]
             rule := tc.rulePfx ++ "alink"
             ins := if t.completeStaticLib then
                      ownObjects tc t ++ flatObjsDeps tc t.publicDeps
                    else ownObjects tc t
             implicitIns := moduleDefs tc t
             orderOnlyIns := finalOrderOnly tc t
             edgeVars := [("output_extension", effectiveExtension t)] }
  | .actionForeach => none
  | ot =>
      some { outs := [primaryOutput tc t]
             rule := tc.rulePfx ++ linkRuleBase ot
             ins := ownObjects tc t ++ flatObjsDeps tc t.publicDeps
             implicitIns := moduleDefs tc t
             orderOnlyIns := finalOrderOnly tc t
             edgeVars := [("ldflags", ldflagsVal tc t), ("libs", ""),
                          ("output_extension", effectiveExtension t)] }

/-! ## The writer -/

/-- The target's variable block; per-language compiler-flag variables carry
the target's own flags followed by the use-PCH flags when the subsystem is
active for that language. -/
def targetVarBlock (tc : Toolchain) (t : Target) : List (String × String) :=
  [("defines", ""), ("include_dirs", ""),
   ("cflags_c", String.intercalate " " (t.cflagsC ++ pchUseFlags tc t .c)),
   ("cflags_cc", String.intercalate " " (t.cflagsCC ++ pchUseFlags tc t .cxx)),
   ("target_output_name", t.outputName)]

/-- The structured result of writing one target: the variable block, the PCH
edges, the ordinary compile edges, the final link/stamp edge (absent when a
duplicate-output failure aborted emission) and the failure flag. -/
structure WriterOutput where
  targetVars : List (String × String)
  pchEdges : List BuildEdge
  compileEdges : List BuildEdge
  finalEdge : Option BuildEdge
  failed : Bool
deriving DecidableEq, Repr

/-- Write one target: classify and compile its sources under duplicate-output
detection, emit PCH edges, and close with the final edge unless emission was
aborted. -/
def writeTarget (tc : Toolchain) (t : Target) : WriterOutput :=
  { targetVars := targetVarBlock tc t
    pchEdges := pchEdgeList tc t
    compileEdges := (compileEdgesGo tc t t.sources []).1
    finalEdge := if (compileEdgesGo tc t t.sources []).2 then none
                 else finalEdgeFor tc t
    failed := (compileEdgesGo tc t t.sources []).2 }

/-- The process-wide FailureState threaded through one writer invocation: a
recorded duplicate-output failure turns the shared flag on, first failure
wins. -/
def runWriter (initialFailed : Bool) (tc : Toolchain) (t : Target) :
    Bool × WriterOutput :=
  let o := writeTarget tc t
  (initialFailed || o.failed, o)

/-! ## Rendering: the per-target section layout -/

/-- One line of the emitted text, structurally: a variable assignment of the
leading block, a blank separator, a `build` edge header, or an indented
per-edge variable override. -/
inductive Line where
  | varLine (name value : String)
  | blank
  | buildLine (outs : List String) (rule : String)
      (ins implicitIns orderOnlyIns : List String)
  | indentVar (name value : String)
deriving DecidableEq, Repr

/-- The lines of one edge: its `build` header followed by its variable
overrides. -/
def renderEdge (e : BuildEdge) : List Line :=
  Line.buildLine e.outs e.rule e.ins e.implicitIns e.orderOnlyIns ::
    e.edgeVars.map fun p => Line.indentVar p.1 p.2

/-- The fixed per-target section layout the tests record: the variable block,
a blank line, the PCH edges (each followed by a blank line), the ordinary
compile edges, a blank line, and the final edge. -/
def renderLines (o : WriterOutput) : List Line :=
  (o.targetVars.map fun p => Line.varLine p.1 p.2) ++ [Line.blank]
    ++ (o.pchEdges.map fun e => renderEdge e ++ [Line.blank]).flatten
    ++ (o.compileEdges.map renderEdge).flatten
    ++ [Line.blank]
    ++ (match o.finalEdge with
        | some e => renderEdge e
        | none => [])

/-- Whether a line is a `build` header naming `p` among its outputs (used to
locate an edge inside the rendered line list). -/
def buildLineWithOut (p : String) : Line → Bool
  | .buildLine outs _ _ _ _ => outs.contains p
  | _ => false

/-! ## The unit tests' targets, used to anchor the model

Each of the following definitions transcribes one target set up by
`ninja_binary_target_writer_unittest.cc`; the `example`s after them check
that the model reproduces the expected output recorded there. -/

/-- The 8 sources of the `SourceSet` test's `//foo:bar` target. -/
def srcBar : List SourceFile :=
  [⟨"foo", "input1", "cc"⟩, ⟨"foo", "input2", "cc"⟩, ⟨"foo", "input3", "o"⟩,
   ⟨"foo", "input4", "obj"⟩, ⟨"foo", "input5", "asm"⟩, ⟨"foo", "input6", "s"⟩,
   ⟨"foo", "input7", "arm"⟩, ⟨"foo", "input8", "S"⟩]

/-- `//foo:bar`, the source set of the `SourceSet` test. -/
def barSS : Target :=
  .mk "foo" "bar" .sourceSet srcBar .nil .nil none false [] [] none none

/-- `//foo:shlib` of the `SourceSet` test: a shared library depending
publicly on the source set. -/
def shlibT : Target :=
  .mk "foo" "shlib" .sharedLibrary [] (.cons barSS .nil) .nil none false [] []
    none none

/-- `//foo:stlib` of the `SourceSet` test, with its completeness a
parameter. -/
def stlibT (complete : Bool) : Target :=
  .mk "foo" "stlib" .staticLibrary [] (.cons barSS .nil) .nil none complete
    [] [] none none

/-- The 7 object contributions of `//foo:bar` in declared order (the `.S`
source contributes nothing). -/
def barObjs : List String :=
  ["obj/foo/bar.input1.o", "obj/foo/bar.input2.o", "../../foo/input3.o",
   "../../foo/input4.obj", "obj/foo/bar.input5.o", "obj/foo/bar.input6.o",
   "obj/foo/bar.input7.o"]

/-- `//foo:action` of the `ProductExtensionAndInputDeps` test. -/
def actionT : Target :=
  .mk "foo" "action" .actionForeach [] .nil .nil none false [] [] none none

/-- `//foo:shlib` of the `ProductExtensionAndInputDeps` test: output
extension overridden to `so.6`, one action dependency. -/
def shlib6T : Target :=
  .mk "foo" "shlib" .sharedLibrary
    [⟨"foo", "input1", "cc"⟩, ⟨"foo", "input2", "cc"⟩]
    (.cons actionT .nil) .nil (some "so.6") false [] [] none none

/-- `//foo:shlib` of the `EmptyProductExtension` test: the override is set to
the explicitly empty string. -/
def shlibEmptyExtT : Target :=
  .mk "foo" "shlib" .sharedLibrary
    [⟨"foo", "input1", "cc"⟩, ⟨"foo", "input2", "cc"⟩]
    .nil .nil (some "") false [] [] none none

/-- `//foo:data_target` of the `SourceSetDataDeps` test. -/
def dataT : Target :=
  .mk "foo" "data_target" .executable [] .nil .nil none false [] [] none none

/-- `//foo:inter` of the `SourceSetDataDeps` test: a source set with a data
dependency. -/
def interT : Target :=
  .mk "foo" "inter" .sourceSet [⟨"foo", "inter", "cc"⟩] .nil (.cons dataT .nil)
    none false [] [] none none

/-- `//foo:exe` of the `SourceSetDataDeps` test. -/
def exeT : Target :=
  .mk "foo" "exe" .executable [⟨"foo", "final", "cc"⟩] (.cons interT .nil) .nil
    none false [] [] none none

/-- `//foo:bar` of the `SharedLibraryModuleDefinitionFile` test. -/
def shlibDefT : Target :=
  .mk "foo" "bar" .sharedLibrary
    [⟨"foo", "sources", "cc"⟩, ⟨"foo", "bar", "def"⟩]
    .nil .nil none false [] [] none none

/-- `//foo:bar` of the `LoadableModule` test. -/
def loadableT : Target :=
  .mk "foo" "bar" .loadableModule [⟨"foo", "sources", "cc"⟩] .nil .nil none
    false [] [] none none

/-- `//foo:exe` of the `LoadableModule` test. -/
def exeOnLoadableT : Target :=
  .mk "foo" "exe" .executable [⟨"foo", "final", "cc"⟩]
    (.cons loadableT .nil) .nil none false [] [] none none

/-- The `withpch` toolchain of the `WinPrecompiledHeaders` test: non-default,
both compilers in MSVC precompiled-header mode. -/
def pchTCmsvc : Toolchain :=
  { name := "withpch", isDefault := false, asmExts := ["asm", "s", "arm"],
    ccPch := .msvc, cxxPch := .msvc }

/-- The `withpch` toolchain of the `GCCPrecompiledHeaders` test. -/
def pchTCgcc : Toolchain :=
  { name := "withpch", isDefault := false, asmExts := ["asm", "s", "arm"],
    ccPch := .gcc, cxxPch := .gcc }

/-- `//foo:no_pch_target` of both precompiled-header tests. -/
def noPchT : Target :=
  .mk "foo" "no_pch_target" .sourceSet
    [⟨"foo", "input1", "cc"⟩, ⟨"foo", "input2", "c"⟩]
    .nil .nil none false ["-std=c99"] [] none none

/-- `//foo:pch_target` of the `WinPrecompiledHeaders` test. -/
def pchTargetWin : Target :=
  .mk "foo" "pch_target" .sourceSet
    [⟨"foo", "input1", "cc"⟩, ⟨"foo", "input2", "c"⟩]
    .nil .nil none false [] []
    (some "build/precompile.h") (some ⟨"build", "precompile", "cc"⟩)

/-- `//foo:pch_target` of the `GCCPrecompiledHeaders` test: the precompiled
source is the header itself here. -/
def pchTargetGcc : Target :=
  .mk "foo" "pch_target" .sourceSet
    [⟨"foo", "input1", "cc"⟩, ⟨"foo", "input2", "c"⟩]
    .nil .nil none false ["-std=c99"] []
    (some "build/precompile.h") (some ⟨"build", "precompile", "h"⟩)

/-- `//foo:bar` of the `DupeObjFileError` test: `//a.cc` listed twice. -/
def dupT : Target :=
  .mk "foo" "bar" .executable [⟨"", "a", "cc"⟩, ⟨"", "a", "cc"⟩] .nil .nil
    none false [] [] none none

/-- A duplicate-output collision between two distinct sources sharing a stem
(`//a.cc` and `//a.c` both map to `obj/bar.a.o`), with the collision not at
the head of the source list. -/
def dupT2 : Target :=
  .mk "foo" "bar" .executable
    [⟨"", "b", "cc"⟩, ⟨"", "a", "cc"⟩, ⟨"", "a", "c"⟩] .nil .nil
    none false [] [] none none

/-! ## Helper lemmas -/

/-! ## The claims -/

/-- The spec's 7-mixed-source scenario: a source set with two C++, three
assembly-like, one pass-through `.o` and one pass-through `.obj` source. -/
def specScenarioSS : Target :=
  .mk "foo" "bar" .sourceSet
    [⟨"foo", "input1", "cc"⟩, ⟨"foo", "input2", "cc"⟩, ⟨"foo", "input3", "o"⟩,
     ⟨"foo", "input4", "obj"⟩, ⟨"foo", "input5", "asm"⟩, ⟨"foo", "input6", "s"⟩,
     ⟨"foo", "input7", "arm"⟩]
    .nil .nil none false [] [] none none

/-- The shared library of the spec's scenario, depending publicly on the
7-mixed-source source set. -/
def specShlibT : Target :=
  .mk "foo" "shlib" .sharedLibrary [] (.cons specScenarioSS .nil) .nil none
    false [] [] none none

/-! ## Model validation against the unit tests' expected outputs -/

example : classify testTC ⟨"foo", "input1", "cc"⟩ = .compileCxx := by decide

example : classify testTC ⟨"foo", "input3", "o"⟩ = .passThrough := by decide

example : classify testTC ⟨"foo", "input6", "s"⟩ = .compileAsm := by decide

example : classify testTC ⟨"foo", "input8", "S"⟩ = .ignored := by decide

example : rebase ⟨"foo", "input1", "cc"⟩ = "../../foo/input1.cc" := by decide

example : rebase ⟨"", "a", "cc"⟩ = "../../a.cc" := by decide

example : objPath testTC "bar" ⟨"foo", "input1", "cc"⟩ = "obj/foo/bar.input1.o" := by decide

example : ownObjects testTC barSS = barObjs := by decide

example :
    (writeTarget testTC barSS).compileEdges.map (fun e => (e.outs, e.rule, e.ins)) =
      [(["obj/foo/bar.input1.o"], "cxx", ["../../foo/input1.cc"]),
       (["obj/foo/bar.input2.o"], "cxx", ["../../foo/input2.cc"]),
       (["obj/foo/bar.input5.o"], "asm", ["../../foo/input5.asm"]),
       (["obj/foo/bar.input6.o"], "asm", ["../../foo/input6.s"]),
       (["obj/foo/bar.input7.o"], "asm", ["../../foo/input7.arm"])] := by decide

example :
    (writeTarget testTC barSS).finalEdge =
      some { outs := ["obj/foo/bar.stamp"], rule := "stamp", ins := barObjs,
             implicitIns := [], orderOnlyIns := [], edgeVars := [] } := by decide

example :
    (writeTarget testTC shlibT).finalEdge =
      some { outs := ["./libshlib.so"], rule := "solink", ins := barObjs,
             implicitIns := [], orderOnlyIns := ["obj/foo/bar.stamp"],
             edgeVars := [("ldflags", ""), ("libs", ""),
                          ("output_extension", ".so")] } := by decide

example :
    (writeTarget testTC (stlibT false)).finalEdge =
      some { outs := ["obj/foo/libstlib.a"], rule := "alink", ins := [],
             implicitIns := [], orderOnlyIns := ["obj/foo/bar.stamp"],
             edgeVars := [("output_extension", "")] } := by decide

example :
    (writeTarget testTC (stlibT true)).finalEdge =
      some { outs := ["obj/foo/libstlib.a"], rule := "alink", ins := barObjs,
             implicitIns := [], orderOnlyIns := ["obj/foo/bar.stamp"],
             edgeVars := [("output_extension", "")] } := by decide

example :
    (writeTarget testTC shlib6T).compileEdges.map
        (fun e => (e.outs, e.orderOnlyIns)) =
      [(["obj/foo/libshlib.input1.o"], ["obj/foo/action.stamp"]),
       (["obj/foo/libshlib.input2.o"], ["obj/foo/action.stamp"])] := by decide

example :
    (writeTarget testTC shlib6T).finalEdge =
      some { outs := ["./libshlib.so.6"], rule := "solink",
             ins := ["obj/foo/libshlib.input1.o", "obj/foo/libshlib.input2.o"],
             implicitIns := [], orderOnlyIns := ["obj/foo/action.stamp"],
             edgeVars := [("ldflags", ""), ("libs", ""),
                          ("output_extension", ".so.6")] } := by decide

example :
    (writeTarget testTC shlibEmptyExtT).finalEdge =
      some { outs := ["./libshlib.so"], rule := "solink",
             ins := ["obj/foo/libshlib.input1.o", "obj/foo/libshlib.input2.o"],
             implicitIns := [], orderOnlyIns := [],
             edgeVars := [("ldflags", ""), ("libs", ""),
                          ("output_extension", ".so")] } := by decide

example :
    (writeTarget testTC interT).finalEdge =
      some { outs := ["obj/foo/inter.stamp"], rule := "stamp",
             ins := ["obj/foo/inter.inter.o"], implicitIns := [],
             orderOnlyIns := ["./data_target"], edgeVars := [] } := by decide

example :
    (writeTarget testTC exeT).finalEdge =
      some { outs := ["./exe"], rule := "link",
             ins := ["obj/foo/exe.final.o", "obj/foo/inter.inter.o"],
             implicitIns := [], orderOnlyIns := ["obj/foo/inter.stamp"],
             edgeVars := [("ldflags", ""), ("libs", ""),
                          ("output_extension", "")] } := by decide

example :
    (writeTarget testTC shlibDefT).finalEdge =
      some { outs := ["./libbar.so"], rule := "solink",
             ins := ["obj/foo/libbar.sources.o"],
             implicitIns := ["../../foo/bar.def"], orderOnlyIns := [],
             edgeVars := [("ldflags", "/DEF:../../foo/bar.def"), ("libs", ""),
                          ("output_extension", ".so")] } := by decide

example :
    (writeTarget testTC loadableT).finalEdge =
      some { outs := ["./libbar.so"], rule := "solink_module",
             ins := ["obj/foo/libbar.sources.o"], implicitIns := [],
             orderOnlyIns := [],
             edgeVars := [("ldflags", ""), ("libs", ""),
                          ("output_extension", ".so")] } := by decide

example :
    (writeTarget testTC exeOnLoadableT).finalEdge =
      some { outs := ["./exe"], rule := "link", ins := ["obj/foo/exe.final.o"],
             implicitIns := [], orderOnlyIns := ["./libbar.so"],
             edgeVars := [("ldflags", ""), ("libs", ""),
                          ("output_extension", "")] } := by decide

example : (writeTarget pchTCmsvc noPchT).pchEdges = [] := by decide

example :
    (writeTarget pchTCmsvc noPchT).compileEdges.map
        (fun e => (e.outs, e.rule, e.ins, e.implicitIns)) =
      [(["withpch/obj/foo/no_pch_target.input1.o"], "withpch_cxx",
        ["../../foo/input1.cc"], []),
       (["withpch/obj/foo/no_pch_target.input2.o"], "withpch_cc",
        ["../../foo/input2.c"], [])] := by decide

example :
    (writeTarget pchTCmsvc noPchT).finalEdge =
      some { outs := ["withpch/obj/foo/no_pch_target.stamp"],
             rule := "withpch_stamp",
             ins := ["withpch/obj/foo/no_pch_target.input1.o",
                     "withpch/obj/foo/no_pch_target.input2.o"],
             implicitIns := [], orderOnlyIns := [], edgeVars := [] } := by decide

example :
    ("cflags_c",
     "/Fpwithpch/obj/foo/pch_target_c.pch /Yubuild/precompile.h") ∈
      (writeTarget pchTCmsvc pchTargetWin).targetVars := by decide

example :
    ("cflags_cc",
     "/Fpwithpch/obj/foo/pch_target_cc.pch /Yubuild/precompile.h") ∈
      (writeTarget pchTCmsvc pchTargetWin).targetVars := by decide

example :
    (writeTarget pchTCmsvc pchTargetWin).pchEdges =
      [{ outs := ["withpch/obj/build/pch_target.precompile.c.o"],
         rule := "withpch_cc", ins := ["../../build/precompile.cc"],
         implicitIns := [], orderOnlyIns := [],
         edgeVars := [("source_name_part", "precompile"),
                      ("source_out_dir", "withpch/obj/build"),
                      ("cflags_c", "${cflags_c} /Ycbuild/precompile.h")] },
       { outs := ["withpch/obj/build/pch_target.precompile.cc.o"],
         rule := "withpch_cxx", ins := ["../../build/precompile.cc"],
         implicitIns := [], orderOnlyIns := [],
         edgeVars := [("source_name_part", "precompile"),
                      ("source_out_dir", "withpch/obj/build"),
                      ("cflags_cc", "${cflags_cc} /Ycbuild/precompile.h")] }] := by
  decide

example :
    (writeTarget pchTCmsvc pchTargetWin).compileEdges.map
        (fun e => (e.outs, e.implicitIns)) =
      [(["withpch/obj/foo/pch_target.input1.o"],
        ["withpch/obj/build/pch_target.precompile.cc.o"]),
       (["withpch/obj/foo/pch_target.input2.o"],
        ["withpch/obj/build/pch_target.precompile.c.o"])] := by decide

example :
    (writeTarget pchTCmsvc pchTargetWin).finalEdge =
      some { outs := ["withpch/obj/foo/pch_target.stamp"],
             rule := "withpch_stamp",
             ins := ["withpch/obj/foo/pch_target.input1.o",
                     "withpch/obj/foo/pch_target.input2.o",
                     "withpch/obj/build/pch_target.precompile.c.o",
                     "withpch/obj/build/pch_target.precompile.cc.o"],
             implicitIns := [], orderOnlyIns := [], edgeVars := [] } := by decide

example :
    ("cflags_c",
     "-std=c99 -include withpch/obj/build/pch_target.precompile.h-c") ∈
      (writeTarget pchTCgcc pchTargetGcc).targetVars := by decide

example :
    ("cflags_cc", "-include withpch/obj/build/pch_target.precompile.h-cc") ∈
      (writeTarget pchTCgcc pchTargetGcc).targetVars := by decide

example :
    (writeTarget pchTCgcc pchTargetGcc).pchEdges =
      [{ outs := ["withpch/obj/build/pch_target.precompile.h-c.gch"],
         rule := "withpch_cc", ins := ["../../build/precompile.h"],
         implicitIns := [], orderOnlyIns := [],
         edgeVars := [("source_name_part", "precompile"),
                      ("source_out_dir", "withpch/obj/build"),
                      ("cflags_c", "-std=c99 -x c-header")] },
       { outs := ["withpch/obj/build/pch_target.precompile.h-cc.gch"],
         rule := "withpch_cxx", ins := ["../../build/precompile.h"],
         implicitIns := [], orderOnlyIns := [],
         edgeVars := [("source_name_part", "precompile"),
                      ("source_out_dir", "withpch/obj/build"),
                      ("cflags_cc", "-x c++-header")] }] := by decide

example :
    (writeTarget pchTCgcc pchTargetGcc).compileEdges.map
        (fun e => (e.outs, e.implicitIns)) =
      [(["withpch/obj/foo/pch_target.input1.o"],
        ["withpch/obj/build/pch_target.precompile.h-cc.gch"]),
       (["withpch/obj/foo/pch_target.input2.o"],
        ["withpch/obj/build/pch_target.precompile.h-c.gch"])] := by decide

example :
    (writeTarget pchTCgcc pchTargetGcc).finalEdge =
      some { outs := ["withpch/obj/foo/pch_target.stamp"],
             rule := "withpch_stamp",
             ins := ["withpch/obj/foo/pch_target.input1.o",
                     "withpch/obj/foo/pch_target.input2.o"],
             implicitIns := [], orderOnlyIns := [], edgeVars := [] } := by decide

example : (writeTarget testTC dupT).failed = true := by decide

example : (runWriter false testTC dupT).1 = true := by decide

example : (writeTarget testTC dupT2).failed = true := by decide

example :
    ((writeTarget testTC dupT2).compileEdges.map fun e => e.outs) =
      [["obj/bar.b.o"], ["obj/bar.a.o"]] := by decide

example : (writeTarget testTC dupT2).finalEdge = none := by decide

/-! ## Helper lemmas and the claims -/

theorem compileEdgesGo_eq_filterMap (tc : Toolchain) (t : Target) :
    ∀ (fs : List SourceFile) (seen : List String),
      (compileEdgesGo tc t fs seen).2 = false →
      (compileEdgesGo tc t fs seen).1 = fs.filterMap (compileEdgeFor tc t) := by
  intro fs
  induction fs with
  | nil => intro seen _; rfl
  | cons f fs ih =>
    intro seen h
    simp only [compileEdgesGo] at h ⊢
    cases hc : compileEdgeFor tc t f with
    | none =>
        simp only [hc] at h ⊢
        simp only [List.filterMap_cons, hc]
        exact ih seen h
    | some e =>
        simp only [hc] at h ⊢
        by_cases hm : objPath tc t.outputName f ∈ seen
        · simp [hm] at h
        · simp only [if_neg hm] at h ⊢
          simp only [List.filterMap_cons, hc]
          exact congrArg (e :: ·) (ih _ h)

theorem writeTarget_finalEdge (tc : Toolchain) (t : Target)
    (h : (writeTarget tc t).failed = false) :
    (writeTarget tc t).finalEdge = finalEdgeFor tc t := by
  have h' : (compileEdgesGo tc t t.sources []).2 = false := h
  show (if (compileEdgesGo tc t t.sources []).2 then none
        else finalEdgeFor tc t) = finalEdgeFor tc t
  rw [h']
  rfl

theorem writeTarget_compileEdges (tc : Toolchain) (t : Target)
    (h : (writeTarget tc t).failed = false) :
    (writeTarget tc t).compileEdges = t.sources.filterMap (compileEdgeFor tc t) := by
  have h' : (compileEdgesGo tc t t.sources []).2 = false := h
  exact compileEdgesGo_eq_filterMap tc t t.sources [] h'

theorem flatObjsDeps_nil (tc : Toolchain) : flatObjsDeps tc .nil = [] := rfl

theorem flatObjsDeps_cons (tc : Toolchain) (d : Target) (ds : TargetList) :
    flatObjsDeps tc (.cons d ds) =
      (if d.outputType = .sourceSet then flatObjs tc d else [])
        ++ flatObjsDeps tc ds := by
  cases d with
  | mk dir name ot ss pd dd oe c fc fcc ph ps =>
      cases ot <;> rfl

theorem primaryOutput_of_sourceSet (tc : Toolchain) (s : Target)
    (hs : s.outputType = .sourceSet) :
    primaryOutput tc s = stampPath tc s := by
  unfold primaryOutput
  rw [hs]

/-- C1 (amended): for every shared-library target depending publicly on one
source-set dependency, the solink edge lists the shared library's own
compiled objects first, then the source set's flattened object list in
declared source order (compiled sources as object paths embedding the source
set's output name, pass-through sources under their original rebased paths in
their declared positions), followed by an order-only input on the source
set's stamp file; in the spec's 7-mixed-source scenario the source set
contributes its 7 (not 5) compiled/pass-through objects in declared order. -/
theorem c1_solink_flattens_source_set (tc : Toolchain) (t s : Target)
    (ht : t.outputType = .sharedLibrary)
    (hd : t.publicDeps = .cons s .nil)
    (hs : s.outputType = .sourceSet)
    (hnf : (writeTarget tc t).failed = false) :
    (writeTarget tc t).finalEdge =
      some { outs := ["./" ++ t.outputName ++ effectiveExtension t]
             rule := tc.rulePfx ++ "solink"
             ins := ownObjects tc t ++ flatObjs tc s
             implicitIns := moduleDefs tc t
             orderOnlyIns := stampPath tc s :: depOrderOnlyList tc t.dataDeps
             edgeVars := [("ldflags", ldflagsVal tc t), ("libs", ""),
                          ("output_extension", effectiveExtension t)] } ∧
    flatObjs testTC specScenarioSS = barObjs := by
  refine ⟨?_, by decide⟩
  rw [writeTarget_finalEdge tc t hnf]
  simp only [finalEdgeFor, ht, primaryOutput, linkRuleBase, finalOrderOnly, hd,
    flatObjsDeps_cons, flatObjsDeps_nil, hs, if_pos, depOrderOnlyList,
    primaryOutput_of_sourceSet tc s hs, List.append_nil, List.cons_append,
    List.nil_append]

/-- C1 counterexample: in the spec's 7-mixed-source scenario the source set
contributes 7 objects to the solink input list, not the 5 the claim
states. -/
theorem c1_counterexample :
    ((writeTarget testTC specShlibT).finalEdge.map fun e => e.ins.length) =
        some 7 ∧
    ((writeTarget testTC specShlibT).finalEdge.map fun e => e.ins.length) ≠
        some 5 := by decide

/-- C1 witness at the unit test's shared library over the 8-source source
set. -/
theorem c1_witness :
    shlibT.outputType = .sharedLibrary ∧
    shlibT.publicDeps = .cons barSS .nil ∧
    barSS.outputType = .sourceSet ∧
    (writeTarget testTC shlibT).failed = false ∧
    ((writeTarget testTC shlibT).finalEdge =
      some { outs := ["./" ++ shlibT.outputName ++ effectiveExtension shlibT]
             rule := testTC.rulePfx ++ "solink"
             ins := ownObjects testTC shlibT ++ flatObjs testTC barSS
             implicitIns := moduleDefs testTC shlibT
             orderOnlyIns := stampPath testTC barSS ::
               depOrderOnlyList testTC shlibT.dataDeps
             edgeVars := [("ldflags", ldflagsVal testTC shlibT), ("libs", ""),
                          ("output_extension", effectiveExtension shlibT)] } ∧
     flatObjs testTC specScenarioSS = barObjs) :=
  ⟨rfl, rfl, rfl, by decide,
   c1_solink_flattens_source_set testTC shlibT barSS rfl rfl rfl (by decide)⟩

/-- C2 (amended): for every shared-library target, the link edge writes
`output_extension` with the effective extension and uses it in the output
path; an unset override yields the toolchain default `.so`, an explicitly
empty override also yields the default `.so` (it does not produce an
extension-less output), and a nonempty override `x` yields `.x`. -/
theorem c2_output_extension (tc : Toolchain) (t : Target)
    (ht : t.outputType = .sharedLibrary)
    (hnf : (writeTarget tc t).failed = false) :
    ∃ e, (writeTarget tc t).finalEdge = some e ∧
      e.edgeVars = [("ldflags", ldflagsVal tc t), ("libs", ""),
                    ("output_extension", effectiveExtension t)] ∧
      e.outs = ["./" ++ t.outputName ++ effectiveExtension t] ∧
      (t.extensionOverride = none → effectiveExtension t = ".so") ∧
      (t.extensionOverride = some "" → effectiveExtension t = ".so") ∧
      (∀ x, t.extensionOverride = some x → x ≠ "" →
        effectiveExtension t = "." ++ x) := by
  rw [writeTarget_finalEdge tc t hnf]
  simp only [finalEdgeFor, ht, primaryOutput, linkRuleBase]
  refine ⟨_, rfl, rfl, rfl, ?_, ?_, ?_⟩
  · intro hov; simp [effectiveExtension, hov, defaultExtensionFor, ht]
  · intro hov; simp [effectiveExtension, hov, defaultExtensionFor, ht]
  · intro x hov hne; simp [effectiveExtension, hov, hne]

/-- C2 counterexample: with the override set to the explicitly empty string,
the writer still emits the toolchain default: `output_extension = .so` (not
an empty value) and an output path carrying the `.so` extension. -/
theorem c2_counterexample :
    shlibEmptyExtT.extensionOverride = some "" ∧
    (writeTarget testTC shlibEmptyExtT).finalEdge =
      some { outs := ["./libshlib.so"], rule := "solink",
             ins := ["obj/foo/libshlib.input1.o", "obj/foo/libshlib.input2.o"],
             implicitIns := [], orderOnlyIns := [],
             edgeVars := [("ldflags", ""), ("libs", ""),
                          ("output_extension", ".so")] } ∧
    (".so" : String) ≠ "" := by decide

/-- C2 witness at the `ProductExtensionAndInputDeps` test's shared library
(`so.6` override). -/
theorem c2_witness :
    shlib6T.outputType = .sharedLibrary ∧
    (writeTarget testTC shlib6T).failed = false ∧
    (∃ e, (writeTarget testTC shlib6T).finalEdge = some e ∧
      e.edgeVars = [("ldflags", ldflagsVal testTC shlib6T), ("libs", ""),
                    ("output_extension", effectiveExtension shlib6T)] ∧
      e.outs = ["./" ++ shlib6T.outputName ++ effectiveExtension shlib6T] ∧
      (shlib6T.extensionOverride = none → effectiveExtension shlib6T = ".so") ∧
      (shlib6T.extensionOverride = some "" →
        effectiveExtension shlib6T = ".so") ∧
      (∀ x, shlib6T.extensionOverride = some x → x ≠ "" →
        effectiveExtension shlib6T = "." ++ x)) :=
  ⟨rfl, by decide, c2_output_extension testTC shlib6T rfl (by decide)⟩

/-- C3: for every static-library target not marked complete that depends on a
source set, the archive edge's inputs are the target's own object
contributions only (empty when it has no sources) while the source set's
stamp is still an order-only input; the same target marked complete archives
its own objects followed by the dependency's transitively flattened objects,
in exactly the list a shared library built from the same fields would link. -/
theorem c3_static_lib_completeness (tc : Toolchain) (d n : String)
    (ss : List SourceFile) (s : Target) (dd : TargetList)
    (fc fcc : List String) (ph : Option String) (psr : Option SourceFile)
    (hs : s.outputType = .sourceSet)
    (hInc : (writeTarget tc (.mk d n .staticLibrary ss (.cons s .nil) dd none
      false fc fcc ph psr)).failed = false)
    (hCom : (writeTarget tc (.mk d n .staticLibrary ss (.cons s .nil) dd none
      true fc fcc ph psr)).failed = false)
    (hSh : (writeTarget tc (.mk d n .sharedLibrary ss (.cons s .nil) dd none
      false fc fcc ph psr)).failed = false) :
    (∃ e, (writeTarget tc (.mk d n .staticLibrary ss (.cons s .nil) dd none
        false fc fcc ph psr)).finalEdge = some e ∧
      e.rule = tc.rulePfx ++ "alink" ∧
      e.ins = ownObjectsOf tc ("lib" ++ n) ss ∧
      e.orderOnlyIns = stampPath tc s :: depOrderOnlyList tc dd ∧
      (ss = [] → e.ins = [])) ∧
    (∃ e₁ e₂, (writeTarget tc (.mk d n .staticLibrary ss (.cons s .nil) dd none
        true fc fcc ph psr)).finalEdge = some e₁ ∧
      (writeTarget tc (.mk d n .sharedLibrary ss (.cons s .nil) dd none
        false fc fcc ph psr)).finalEdge = some e₂ ∧
      e₁.ins = e₂.ins ∧
      e₁.ins = ownObjectsOf tc ("lib" ++ n) ss ++ flatObjs tc s) := by
  constructor
  · rw [writeTarget_finalEdge _ _ hInc]
    refine ⟨_, rfl, rfl, rfl, ?_, ?_⟩
    · show finalOrderOnly tc _ = _
      simp only [finalOrderOnly, depOrderOnlyList, Target.publicDeps,
        Target.dataDeps, primaryOutput_of_sourceSet tc s hs, List.cons_append,
        List.nil_append]
    · intro he
      subst he
      rfl
  · rw [writeTarget_finalEdge _ _ hCom, writeTarget_finalEdge _ _ hSh]
    refine ⟨_, _, rfl, rfl, rfl, ?_⟩
    show ownObjectsOf tc ("lib" ++ n) ss ++ flatObjsDeps tc (.cons s .nil) = _
    simp only [flatObjsDeps_cons, flatObjsDeps_nil, hs, if_pos,
      List.append_nil]

/-- C3 witness at the `SourceSet` test's static library (no own sources) in
its incomplete and complete variants, against the matching shared library. -/
theorem c3_witness :
    barSS.outputType = .sourceSet ∧
    (writeTarget testTC (.mk "foo" "stlib" .staticLibrary []
      (.cons barSS .nil) .nil none false [] [] none none)).failed = false ∧
    (writeTarget testTC (.mk "foo" "stlib" .staticLibrary []
      (.cons barSS .nil) .nil none true [] [] none none)).failed = false ∧
    (writeTarget testTC (.mk "foo" "stlib" .sharedLibrary []
      (.cons barSS .nil) .nil none false [] [] none none)).failed = false ∧
    ((∃ e, (writeTarget testTC (.mk "foo" "stlib" .staticLibrary []
        (.cons barSS .nil) .nil none false [] [] none none)).finalEdge =
          some e ∧
      e.rule = testTC.rulePfx ++ "alink" ∧
      e.ins = ownObjectsOf testTC ("lib" ++ "stlib") [] ∧
      e.orderOnlyIns = stampPath testTC barSS ::
        depOrderOnlyList testTC .nil ∧
      (([] : List SourceFile) = [] → e.ins = [])) ∧
    (∃ e₁ e₂, (writeTarget testTC (.mk "foo" "stlib" .staticLibrary []
        (.cons barSS .nil) .nil none true [] [] none none)).finalEdge =
          some e₁ ∧
      (writeTarget testTC (.mk "foo" "stlib" .sharedLibrary []
        (.cons barSS .nil) .nil none false [] [] none none)).finalEdge =
          some e₂ ∧
      e₁.ins = e₂.ins ∧
      e₁.ins = ownObjectsOf testTC ("lib" ++ "stlib") [] ++
        flatObjs testTC barSS)) :=
  ⟨rfl, by decide, by decide, by decide,
   c3_static_lib_completeness testTC "foo" "stlib" [] barSS .nil [] [] none
     none rfl (by decide) (by decide) (by decide)⟩

theorem compileEdgesGo_append (tc : Toolchain) (t : Target) :
    ∀ (fs₁ fs₂ : List SourceFile) (seen : List String),
      (compileEdgesGo tc t fs₁ seen).2 = false →
      compileEdgesGo tc t (fs₁ ++ fs₂) seen =
        ((compileEdgesGo tc t fs₁ seen).1 ++
          (compileEdgesGo tc t fs₂ (seenAccum tc t fs₁ seen)).1,
         (compileEdgesGo tc t fs₂ (seenAccum tc t fs₁ seen)).2) := by
  intro fs₁
  induction fs₁ with
  | nil =>
      intro fs₂ seen _
      simp [compileEdgesGo, seenAccum]
  | cons f fs ih =>
      intro fs₂ seen h
      simp only [compileEdgesGo, List.cons_append, seenAccum] at h ⊢
      cases hc : compileEdgeFor tc t f with
      | none =>
          simp only [hc] at h ⊢
          exact ih fs₂ seen h
      | some e =>
          simp only [hc] at h ⊢
          by_cases hm : objPath tc t.outputName f ∈ seen
          · simp [hm] at h
          · simp only [if_neg hm] at h ⊢
            simp only [List.append_eq]
            rw [ih fs₂ _ h]
            simp

theorem mem_seenAccum_of_mem (tc : Toolchain) (t : Target) :
    ∀ (fs : List SourceFile) (seen : List String) (x : String),
      x ∈ seen → x ∈ seenAccum tc t fs seen := by
  intro fs
  induction fs with
  | nil => intro seen x hx; exact hx
  | cons f fs ih =>
      intro seen x hx
      simp only [seenAccum]
      cases hc : compileEdgeFor tc t f with
      | none =>
          simp only [hc]
          exact ih seen x hx
      | some e =>
          simp only [hc]
          exact ih _ x (List.mem_cons_of_mem _ hx)

theorem objPath_mem_seenAccum (tc : Toolchain) (t : Target) :
    ∀ (fs : List SourceFile) (seen : List String) (g : SourceFile),
      g ∈ fs → compileEdgeFor tc t g ≠ none →
      objPath tc t.outputName g ∈ seenAccum tc t fs seen := by
  intro fs
  induction fs with
  | nil => intro seen g hg _; exact absurd hg (List.not_mem_nil g)
  | cons f fs ih =>
      intro seen g hg hgc
      simp only [seenAccum]
      rcases List.mem_cons.mp hg with rfl | hg'
      · cases hc : compileEdgeFor tc t g with
        | none => exact absurd hc hgc
        | some e =>
            simp only [hc]
            exact mem_seenAccum_of_mem tc t fs _ _ (List.mem_cons_self _ _)
      · cases hc : compileEdgeFor tc t f with
        | none =>
            simp only [hc]
            exact ih seen g hg' hgc
        | some e =>
            simp only [hc]
            exact ih _ g hg' hgc

/-- C4 (amended): for every target whose source list contains a compiled
source `f` preceded (anywhere earlier, adjacent or not) by a compiled source
`g` — identical to `f` or merely mapping to the same object output path, such
as `//a.cc` and `//a.c` — and whose earlier sources are collision-free, the
writer records a duplicate-output failure: the shared failure flag is false
before emission and true after, the compile edges emitted are exactly those
of the sources strictly before `f` (so the first occurrence's edge IS
emitted), nothing is emitted for the colliding source or anything after it,
and no final edge is emitted. -/
theorem c4_duplicate_object_failure (tc : Toolchain) (t : Target)
    (pre rest : List SourceFile) (g f : SourceFile)
    (hsrc : t.sources = pre ++ f :: rest)
    (hg : g ∈ pre)
    (hgc : compileEdgeFor tc t g ≠ none)
    (hfc : compileEdgeFor tc t f ≠ none)
    (hpath : objPath tc t.outputName g = objPath tc t.outputName f)
    (hpre : (compileEdgesGo tc t pre []).2 = false) :
    (runWriter false tc t).1 = true ∧
    (writeTarget tc t).failed = true ∧
    (writeTarget tc t).compileEdges = pre.filterMap (compileEdgeFor tc t) ∧
    (writeTarget tc t).finalEdge = none := by
  have hin : objPath tc t.outputName f ∈ seenAccum tc t pre [] := by
    rw [← hpath]
    exact objPath_mem_seenAccum tc t pre [] g hg hgc
  obtain ⟨e, he⟩ := Option.ne_none_iff_exists'.mp hfc
  have hhead : compileEdgesGo tc t (f :: rest) (seenAccum tc t pre []) =
      ([], true) := by
    simp only [compileEdgesGo, he]
    rw [if_pos hin]
  have hgo : compileEdgesGo tc t t.sources [] =
      (pre.filterMap (compileEdgeFor tc t), true) := by
    rw [hsrc, compileEdgesGo_append tc t pre (f :: rest) [] hpre, hhead,
      compileEdgesGo_eq_filterMap tc t pre [] hpre]
    simp
  refine ⟨?_, ?_, ?_, ?_⟩
  · show (false || (compileEdgesGo tc t t.sources []).2) = true
    rw [hgo]
    rfl
  · show (compileEdgesGo tc t t.sources []).2 = true
    rw [hgo]
  · show (compileEdgesGo tc t t.sources []).1 = _
    rw [hgo]
  · show (if (compileEdgesGo tc t t.sources []).2 then none
          else finalEdgeFor tc t) = none
    rw [hgo]
    rfl

/-- C4 counterexample: on the `DupeObjFileError` target (`//a.cc` listed
twice) a compile edge IS emitted — exactly one, for the first occurrence —
so the claim that no compile edge is emitted for either colliding source is
false; the failure flag still flips from false to true. -/
theorem c4_counterexample :
    (runWriter false testTC dupT).1 = true ∧
    (writeTarget testTC dupT).compileEdges.length = 1 ∧
    (writeTarget testTC dupT).compileEdges ≠ [] ∧
    ((writeTarget testTC dupT).compileEdges.map fun e => e.outs) =
      [["obj/bar.a.o"]] := by decide

/-- C4 witness at a non-adjacent collision between the distinct sources
`//a.cc` and `//a.c`, which share the object path `obj/bar.a.o`. -/
theorem c4_witness :
    dupT2.sources =
      [⟨"", "b", "cc"⟩, ⟨"", "a", "cc"⟩] ++ ⟨"", "a", "c"⟩ :: [] ∧
    ⟨"", "a", "cc"⟩ ∈
      ([⟨"", "b", "cc"⟩, ⟨"", "a", "cc"⟩] : List SourceFile) ∧
    compileEdgeFor testTC dupT2 ⟨"", "a", "cc"⟩ ≠ none ∧
    compileEdgeFor testTC dupT2 ⟨"", "a", "c"⟩ ≠ none ∧
    objPath testTC dupT2.outputName ⟨"", "a", "cc"⟩ =
      objPath testTC dupT2.outputName ⟨"", "a", "c"⟩ ∧
    (compileEdgesGo testTC dupT2
      [⟨"", "b", "cc"⟩, ⟨"", "a", "cc"⟩] []).2 = false ∧
    ((runWriter false testTC dupT2).1 = true ∧
     (writeTarget testTC dupT2).failed = true ∧
     (writeTarget testTC dupT2).compileEdges =
       [⟨"", "b", "cc"⟩, ⟨"", "a", "cc"⟩].filterMap
         (compileEdgeFor testTC dupT2) ∧
     (writeTarget testTC dupT2).finalEdge = none) :=
  ⟨rfl, by decide, by decide, by decide, by decide, by decide,
   c4_duplicate_object_failure testTC dupT2
     [⟨"", "b", "cc"⟩, ⟨"", "a", "cc"⟩] [] ⟨"", "a", "cc"⟩ ⟨"", "a", "c"⟩
     rfl (by decide) (by decide) (by decide) (by decide) (by decide)⟩

/-- C5: under a toolchain whose CC and CXX tools declare MSVC-style
precompiled headers, for every target declaring both a precompiled-header
path and source: exactly one PCH compile edge exists per language present
among the sources (none for an absent language); the per-language PCH edge
builds the precompiled source with a `/Yc<header>` flag appended only on that
edge; the block's per-language cflags gain `/Fp<per-language .pch>` and
`/Yu<header>`; and every ordinary compile edge of that language carries an
explicit (`|`) dependency on the PCH edge's object output while its own
variable overrides stay the plain two. -/
theorem c5_msvc_pch (tc : Toolchain) (t : Target) (h : String)
    (ps : SourceFile)
    (hcc : tc.ccPch = .msvc) (hcxx : tc.cxxPch = .msvc)
    (hph : t.pchHeader = some h) (hps : t.pchSource = some ps)
    (hnf : (writeTarget tc t).failed = false) :
    (writeTarget tc t).pchEdges.length =
        (if hasCompiledLang tc t.sources .c then 1 else 0) +
        (if hasCompiledLang tc t.sources .cxx then 1 else 0) ∧
    (hasCompiledLang tc t.sources .c = true →
       msvcPchEdge tc t h ps .c ∈ (writeTarget tc t).pchEdges ∧
       (msvcPchEdge tc t h ps .c).outs = [msvcPchObj tc t ps .c] ∧
       (msvcPchEdge tc t h ps .c).ins = [rebase ps] ∧
       (msvcPchEdge tc t h ps .c).edgeVars =
         [("source_name_part", ps.stem), ("source_out_dir", sourceOutDir tc ps),
          ("cflags_c", "${cflags_c} /Yc" ++ h)]) ∧
    (hasCompiledLang tc t.sources .cxx = true →
       msvcPchEdge tc t h ps .cxx ∈ (writeTarget tc t).pchEdges ∧
       (msvcPchEdge tc t h ps .cxx).edgeVars =
         [("source_name_part", ps.stem), ("source_out_dir", sourceOutDir tc ps),
          ("cflags_cc", "${cflags_cc} /Yc" ++ h)]) ∧
    (hasCompiledLang tc t.sources .c = false → pchEdgesFor tc t .c = []) ∧
    (hasCompiledLang tc t.sources .cxx = false → pchEdgesFor tc t .cxx = []) ∧
    ("cflags_c", String.intercalate " "
        (t.cflagsC ++ ["/Fp" ++ msvcPchFile tc t .c, "/Yu" ++ h])) ∈
      (writeTarget tc t).targetVars ∧
    ("cflags_cc", String.intercalate " "
        (t.cflagsCC ++ ["/Fp" ++ msvcPchFile tc t .cxx, "/Yu" ++ h])) ∈
      (writeTarget tc t).targetVars ∧
    (∀ f, f ∈ t.sources → classify tc f = .compileC →
       ∃ e, compileEdgeFor tc t f = some e ∧
         e ∈ (writeTarget tc t).compileEdges ∧
         e.implicitIns = [msvcPchObj tc t ps .c] ∧
         e.edgeVars = [("source_name_part", f.stem),
                       ("source_out_dir", sourceOutDir tc f)]) ∧
    (∀ f, f ∈ t.sources → classify tc f = .compileCxx →
       ∃ e, compileEdgeFor tc t f = some e ∧
         e ∈ (writeTarget tc t).compileEdges ∧
         e.implicitIns = [msvcPchObj tc t ps .cxx] ∧
         e.edgeVars = [("source_name_part", f.stem),
                       ("source_out_dir", sourceOutDir tc f)]) := by
  have hpc : pchConfigured t = some (h, ps) := by
    unfold pchConfigured
    rw [hph, hps]
  have hlist : (writeTarget tc t).pchEdges =
      pchEdgesFor tc t .c ++ pchEdgesFor tc t .cxx := rfl
  have hforC : pchEdgesFor tc t .c =
      if hasCompiledLang tc t.sources .c then [msvcPchEdge tc t h ps .c]
      else [] := by
    unfold pchEdgesFor
    rw [show tc.pchModeFor .c = .msvc from hcc, hpc]
  have hforCxx : pchEdgesFor tc t .cxx =
      if hasCompiledLang tc t.sources .cxx then [msvcPchEdge tc t h ps .cxx]
      else [] := by
    unfold pchEdgesFor
    rw [show tc.pchModeFor .cxx = .msvc from hcxx, hpc]
  refine ⟨?_, ?_, ?_, ?_, ?_, ?_, ?_, ?_, ?_⟩
  · rw [hlist, List.length_append, hforC, hforCxx]
    cases hasCompiledLang tc t.sources .c <;>
      cases hasCompiledLang tc t.sources .cxx <;> rfl
  · intro hA
    refine ⟨?_, rfl, rfl, rfl⟩
    rw [hlist, hforC, if_pos hA]
    exact List.mem_append_left _ (List.mem_singleton.mpr rfl)
  · intro hB
    refine ⟨?_, rfl⟩
    rw [hlist, hforCxx, if_pos hB]
    exact List.mem_append_right _ (List.mem_singleton.mpr rfl)
  · intro hA
    rw [hforC, if_neg (by simp [hA])]
  · intro hB
    rw [hforCxx, if_neg (by simp [hB])]
  · show _ ∈ targetVarBlock tc t
    unfold targetVarBlock pchUseFlags
    rw [show tc.pchModeFor .c = .msvc from hcc, hpc]
    simp
  · show _ ∈ targetVarBlock tc t
    unfold targetVarBlock pchUseFlags
    rw [show tc.pchModeFor .cxx = .msvc from hcxx, hpc]
    simp
  · intro f hf hcl
    have hdep : pchDepOut tc t .c = some (msvcPchObj tc t ps .c) := by
      unfold pchDepOut
      rw [show tc.pchModeFor .c = .msvc from hcc, hpc]
    have hce : compileEdgeFor tc t f =
        some { outs := [objPath tc t.outputName f]
               rule := tc.rulePfx ++ langTool .c
               ins := [rebase f]
               implicitIns := [msvcPchObj tc t ps .c]
               orderOnlyIns := hardDepStamps tc t.publicDeps
               edgeVars := [("source_name_part", f.stem),
                            ("source_out_dir", sourceOutDir tc f)] } := by
      unfold compileEdgeFor
      rw [hcl]
      show some _ = some _
      rw [show (pchDepOut tc t .c).toList = [msvcPchObj tc t ps .c] from
        by rw [hdep]; rfl]
    refine ⟨_, hce, ?_, rfl, rfl⟩
    rw [writeTarget_compileEdges tc t hnf]
    exact List.mem_filterMap.mpr ⟨f, hf, hce⟩
  · intro f hf hcl
    have hdep : pchDepOut tc t .cxx = some (msvcPchObj tc t ps .cxx) := by
      unfold pchDepOut
      rw [show tc.pchModeFor .cxx = .msvc from hcxx, hpc]
    have hce : compileEdgeFor tc t f =
        some { outs := [objPath tc t.outputName f]
               rule := tc.rulePfx ++ langTool .cxx
               ins := [rebase f]
               implicitIns := [msvcPchObj tc t ps .cxx]
               orderOnlyIns := hardDepStamps tc t.publicDeps
               edgeVars := [("source_name_part", f.stem),
                            ("source_out_dir", sourceOutDir tc f)] } := by
      unfold compileEdgeFor
      rw [hcl]
      show some _ = some _
      rw [show (pchDepOut tc t .cxx).toList = [msvcPchObj tc t ps .cxx] from
        by rw [hdep]; rfl]
    refine ⟨_, hce, ?_, rfl, rfl⟩
    rw [writeTarget_compileEdges tc t hnf]
    exact List.mem_filterMap.mpr ⟨f, hf, hce⟩

/-- C5 witness at the `WinPrecompiledHeaders` test's `pch_target` (one C++
and one C source, both languages present). -/
theorem c5_witness :
    pchTCmsvc.ccPch = .msvc ∧
    pchTCmsvc.cxxPch = .msvc ∧
    pchTargetWin.pchHeader = some "build/precompile.h" ∧
    pchTargetWin.pchSource = some ⟨"build", "precompile", "cc"⟩ ∧
    (writeTarget pchTCmsvc pchTargetWin).failed = false ∧
    ((writeTarget pchTCmsvc pchTargetWin).pchEdges.length =
        (if hasCompiledLang pchTCmsvc pchTargetWin.sources .c then 1 else 0) +
        (if hasCompiledLang pchTCmsvc pchTargetWin.sources .cxx then 1
         else 0) ∧
     (hasCompiledLang pchTCmsvc pchTargetWin.sources .c = true →
        msvcPchEdge pchTCmsvc pchTargetWin "build/precompile.h"
            ⟨"build", "precompile", "cc"⟩ .c ∈
          (writeTarget pchTCmsvc pchTargetWin).pchEdges ∧
        (msvcPchEdge pchTCmsvc pchTargetWin "build/precompile.h"
            ⟨"build", "precompile", "cc"⟩ .c).outs =
          [msvcPchObj pchTCmsvc pchTargetWin ⟨"build", "precompile", "cc"⟩ .c] ∧
        (msvcPchEdge pchTCmsvc pchTargetWin "build/precompile.h"
            ⟨"build", "precompile", "cc"⟩ .c).ins =
          [rebase ⟨"build", "precompile", "cc"⟩] ∧
        (msvcPchEdge pchTCmsvc pchTargetWin "build/precompile.h"
            ⟨"build", "precompile", "cc"⟩ .c).edgeVars =
          [("source_name_part", SourceFile.stem ⟨"build", "precompile", "cc"⟩),
           ("source_out_dir",
            sourceOutDir pchTCmsvc ⟨"build", "precompile", "cc"⟩),
           ("cflags_c", "${cflags_c} /Yc" ++ "build/precompile.h")]) ∧
     (hasCompiledLang pchTCmsvc pchTargetWin.sources .cxx = true →
        msvcPchEdge pchTCmsvc pchTargetWin "build/precompile.h"
            ⟨"build", "precompile", "cc"⟩ .cxx ∈
          (writeTarget pchTCmsvc pchTargetWin).pchEdges ∧
        (msvcPchEdge pchTCmsvc pchTargetWin "build/precompile.h"
            ⟨"build", "precompile", "cc"⟩ .cxx).edgeVars =
          [("source_name_part", SourceFile.stem ⟨"build", "precompile", "cc"⟩),
           ("source_out_dir",
            sourceOutDir pchTCmsvc ⟨"build", "precompile", "cc"⟩),
           ("cflags_cc", "${cflags_cc} /Yc" ++ "build/precompile.h")]) ∧
     (hasCompiledLang pchTCmsvc pchTargetWin.sources .c = false →
        pchEdgesFor pchTCmsvc pchTargetWin .c = []) ∧
     (hasCompiledLang pchTCmsvc pchTargetWin.sources .cxx = false →
        pchEdgesFor pchTCmsvc pchTargetWin .cxx = []) ∧
     ("cflags_c", String.intercalate " "
         (pchTargetWin.cflagsC ++
          ["/Fp" ++ msvcPchFile pchTCmsvc pchTargetWin .c,
           "/Yu" ++ "build/precompile.h"])) ∈
       (writeTarget pchTCmsvc pchTargetWin).targetVars ∧
     ("cflags_cc", String.intercalate " "
         (pchTargetWin.cflagsCC ++
          ["/Fp" ++ msvcPchFile pchTCmsvc pchTargetWin .cxx,
           "/Yu" ++ "build/precompile.h"])) ∈
       (writeTarget pchTCmsvc pchTargetWin).targetVars ∧
     (∀ f, f ∈ pchTargetWin.sources → classify pchTCmsvc f = .compileC →
        ∃ e, compileEdgeFor pchTCmsvc pchTargetWin f = some e ∧
          e ∈ (writeTarget pchTCmsvc pchTargetWin).compileEdges ∧
          e.implicitIns =
            [msvcPchObj pchTCmsvc pchTargetWin ⟨"build", "precompile", "cc"⟩
              .c] ∧
          e.edgeVars = [("source_name_part", f.stem),
                        ("source_out_dir", sourceOutDir pchTCmsvc f)]) ∧
     (∀ f, f ∈ pchTargetWin.sources → classify pchTCmsvc f = .compileCxx →
        ∃ e, compileEdgeFor pchTCmsvc pchTargetWin f = some e ∧
          e ∈ (writeTarget pchTCmsvc pchTargetWin).compileEdges ∧
          e.implicitIns =
            [msvcPchObj pchTCmsvc pchTargetWin ⟨"build", "precompile", "cc"⟩
              .cxx] ∧
          e.edgeVars = [("source_name_part", f.stem),
                        ("source_out_dir", sourceOutDir pchTCmsvc f)])) :=
  ⟨rfl, rfl, rfl, rfl, by decide,
   c5_msvc_pch pchTCmsvc pchTargetWin "build/precompile.h"
     ⟨"build", "precompile", "cc"⟩ rfl rfl rfl rfl (by decide)⟩

/-- C6: the classifier passes `.o` and `.obj` sources straight through to the
link/stamp object list under their original rebased paths at their declared
positions with no compile edge, and extension matching is case-sensitive: a
lowercase `.s` source yields an asm compile edge while an uppercase `.S`
source is ignored, contributing no edge and no object. -/
theorem c6_pass_through_and_case_sensitivity (tc : Toolchain) (t : Target)
    (f : SourceFile) (pre post : List SourceFile)
    (hsrc : t.sources = pre ++ f :: post)
    (hs : "s" ∈ tc.asmExts) (hS : "S" ∉ tc.asmExts)
    (ho : "o" ∉ tc.asmExts) (hobj : "obj" ∉ tc.asmExts) :
    ((f.ext = "o" ∨ f.ext = "obj") →
       objContribution tc t.outputName f = some (rebase f) ∧
       compileEdgeFor tc t f = none ∧
       ownObjects tc t = ownObjectsOf tc t.outputName pre ++
         rebase f :: ownObjectsOf tc t.outputName post) ∧
    (f.ext = "s" →
       ∃ e, compileEdgeFor tc t f = some e ∧
         e.rule = tc.rulePfx ++ "asm" ∧
         e.outs = [objPath tc t.outputName f] ∧ e.ins = [rebase f] ∧
         ((writeTarget tc t).failed = false →
           e ∈ (writeTarget tc t).compileEdges)) ∧
    (f.ext = "S" →
       objContribution tc t.outputName f = none ∧
       compileEdgeFor tc t f = none ∧
       ownObjects tc t = ownObjectsOf tc t.outputName pre ++
         ownObjectsOf tc t.outputName post) := by
  refine ⟨?_, ?_, ?_⟩
  · intro hext
    have hcl : classify tc f = .passThrough := by
      unfold classify
      rcases hext with hext | hext <;> rw [hext]
      · rw [if_neg (by decide), if_neg (by decide), if_neg ho,
          if_pos (by decide)]
      · rw [if_neg (by decide), if_neg (by decide), if_neg hobj,
          if_pos (by decide)]
    have hcontr : objContribution tc t.outputName f = some (rebase f) := by
      unfold objContribution
      rw [hcl]
    refine ⟨hcontr, ?_, ?_⟩
    · unfold compileEdgeFor
      rw [hcl]
      rfl
    · unfold ownObjects ownObjectsOf
      rw [hsrc, List.filterMap_append]
      simp [List.filterMap_cons, hcontr, ownObjectsOf]
  · intro hext
    have hcl : classify tc f = .compileAsm := by
      unfold classify
      rw [hext]
      rw [if_neg (by decide), if_neg (by decide), if_pos hs]
    have hce : compileEdgeFor tc t f =
        some { outs := [objPath tc t.outputName f]
               rule := tc.rulePfx ++ langTool .asm
               ins := [rebase f]
               implicitIns := (pchDepOut tc t .asm).toList
               orderOnlyIns := hardDepStamps tc t.publicDeps
               edgeVars := [("source_name_part", f.stem),
                            ("source_out_dir", sourceOutDir tc f)] } := by
      unfold compileEdgeFor
      rw [hcl]
      rfl
    refine ⟨_, hce, rfl, rfl, rfl, ?_⟩
    intro hnf
    rw [writeTarget_compileEdges tc t hnf, hsrc]
    exact List.mem_filterMap.mpr ⟨f, by simp, hce⟩
  · intro hext
    have hcl : classify tc f = .ignored := by
      unfold classify
      rw [hext]
      rw [if_neg (by decide), if_neg (by decide), if_neg hS,
        if_neg (by decide), if_neg (by decide)]
    have hcontr : objContribution tc t.outputName f = none := by
      unfold objContribution
      rw [hcl]
    refine ⟨hcontr, ?_, ?_⟩
    · unfold compileEdgeFor
      rw [hcl]
      rfl
    · unfold ownObjects ownObjectsOf
      rw [hsrc, List.filterMap_append]
      simp [List.filterMap_cons, hcontr, ownObjectsOf]

/-- C6 witness at the `SourceSet` test's pass-through `//foo/input3.o`
source in its declared position. -/
theorem c6_witness :
    barSS.sources =
      [⟨"foo", "input1", "cc"⟩, ⟨"foo", "input2", "cc"⟩] ++
        ⟨"foo", "input3", "o"⟩ ::
          [⟨"foo", "input4", "obj"⟩, ⟨"foo", "input5", "asm"⟩,
           ⟨"foo", "input6", "s"⟩, ⟨"foo", "input7", "arm"⟩,
           ⟨"foo", "input8", "S"⟩] ∧
    "s" ∈ testTC.asmExts ∧ "S" ∉ testTC.asmExts ∧
    "o" ∉ testTC.asmExts ∧ "obj" ∉ testTC.asmExts ∧
    (((SourceFile.ext ⟨"foo", "input3", "o"⟩ = "o" ∨
       SourceFile.ext ⟨"foo", "input3", "o"⟩ = "obj") →
        objContribution testTC barSS.outputName ⟨"foo", "input3", "o"⟩ =
          some (rebase ⟨"foo", "input3", "o"⟩) ∧
        compileEdgeFor testTC barSS ⟨"foo", "input3", "o"⟩ = none ∧
        ownObjects testTC barSS =
          ownObjectsOf testTC barSS.outputName
              [⟨"foo", "input1", "cc"⟩, ⟨"foo", "input2", "cc"⟩] ++
            rebase ⟨"foo", "input3", "o"⟩ ::
              ownObjectsOf testTC barSS.outputName
                [⟨"foo", "input4", "obj"⟩, ⟨"foo", "input5", "asm"⟩,
                 ⟨"foo", "input6", "s"⟩, ⟨"foo", "input7", "arm"⟩,
                 ⟨"foo", "input8", "S"⟩]) ∧
     (SourceFile.ext ⟨"foo", "input3", "o"⟩ = "s" →
        ∃ e, compileEdgeFor testTC barSS ⟨"foo", "input3", "o"⟩ = some e ∧
          e.rule = testTC.rulePfx ++ "asm" ∧
          e.outs = [objPath testTC barSS.outputName ⟨"foo", "input3", "o"⟩] ∧
          e.ins = [rebase ⟨"foo", "input3", "o"⟩] ∧
          ((writeTarget testTC barSS).failed = false →
            e ∈ (writeTarget testTC barSS).compileEdges)) ∧
     (SourceFile.ext ⟨"foo", "input3", "o"⟩ = "S" →
        objContribution testTC barSS.outputName ⟨"foo", "input3", "o"⟩ =
          none ∧
        compileEdgeFor testTC barSS ⟨"foo", "input3", "o"⟩ = none ∧
        ownObjects testTC barSS =
          ownObjectsOf testTC barSS.outputName
              [⟨"foo", "input1", "cc"⟩, ⟨"foo", "input2", "cc"⟩] ++
            ownObjectsOf testTC barSS.outputName
              [⟨"foo", "input4", "obj"⟩, ⟨"foo", "input5", "asm"⟩,
               ⟨"foo", "input6", "s"⟩, ⟨"foo", "input7", "arm"⟩,
               ⟨"foo", "input8", "S"⟩])) :=
  ⟨rfl, by decide, by decide, by decide, by decide,
   c6_pass_through_and_case_sensitivity testTC barSS ⟨"foo", "input3", "o"⟩
     [⟨"foo", "input1", "cc"⟩, ⟨"foo", "input2", "cc"⟩]
     [⟨"foo", "input4", "obj"⟩, ⟨"foo", "input5", "asm"⟩,
      ⟨"foo", "input6", "s"⟩, ⟨"foo", "input7", "arm"⟩,
      ⟨"foo", "input8", "S"⟩]
     rfl (by decide) (by decide) (by decide) (by decide)⟩

/-- C7 (amended): within every target's output the sections appear in the
fixed order: variable block first, then precompiled-header edges, then
ordinary compile edges, then the final link or stamp edge, separated by
blank lines (the PCH section precedes the compile section, not the other way
round). -/
theorem c7_section_order (tc : Toolchain) (t : Target) :
    ∃ varPart finalPart,
      renderLines (writeTarget tc t) =
        varPart ++ [Line.blank] ++
          ((writeTarget tc t).pchEdges.map
            (fun e => renderEdge e ++ [Line.blank])).flatten ++
          ((writeTarget tc t).compileEdges.map renderEdge).flatten ++
          [Line.blank] ++ finalPart ∧
      varPart = (writeTarget tc t).targetVars.map
        (fun p => Line.varLine p.1 p.2) ∧
      (∀ l, l ∈ varPart → ∃ nm v, l = Line.varLine nm v) ∧
      (∀ e, (writeTarget tc t).finalEdge = some e → finalPart = renderEdge e) ∧
      ((writeTarget tc t).finalEdge = none → finalPart = []) := by
  refine ⟨(writeTarget tc t).targetVars.map (fun p => Line.varLine p.1 p.2),
    (match (writeTarget tc t).finalEdge with
     | some e => renderEdge e
     | none => []), rfl, rfl, ?_, ?_, ?_⟩
  · intro l hl
    obtain ⟨p, _, rfl⟩ := List.mem_map.mp hl
    exact ⟨p.1, p.2, rfl⟩
  · intro e he
    rw [he]
  · intro he
    rw [he]

/-- C7 counterexample: on the `WinPrecompiledHeaders` target both sections
are nonempty and the PCH edge's `build` line appears strictly before the
ordinary compile edge's `build` line, refuting the claimed
compile-before-PCH section order. -/
theorem c7_counterexample :
    ((writeTarget pchTCmsvc pchTargetWin).pchEdges.map fun e => e.outs) =
      [["withpch/obj/build/pch_target.precompile.c.o"],
       ["withpch/obj/build/pch_target.precompile.cc.o"]] ∧
    ((writeTarget pchTCmsvc pchTargetWin).compileEdges.map fun e => e.outs) =
      [["withpch/obj/foo/pch_target.input1.o"],
       ["withpch/obj/foo/pch_target.input2.o"]] ∧
    (renderLines (writeTarget pchTCmsvc pchTargetWin)).findIdx
        (buildLineWithOut "withpch/obj/build/pch_target.precompile.c.o") <
      (renderLines (writeTarget pchTCmsvc pchTargetWin)).findIdx
        (buildLineWithOut "withpch/obj/foo/pch_target.input1.o") ∧
    (renderLines (writeTarget pchTCmsvc pchTargetWin)).findIdx
        (buildLineWithOut "withpch/obj/foo/pch_target.input1.o") <
      (renderLines (writeTarget pchTCmsvc pchTargetWin)).length := by decide

/-- C8: for every target built with a non-default toolchain, every emitted
rule name is the toolchain's name, an underscore and the base rule; every
generated object path, stamp path and `source_out_dir` value is placed under
the toolchain's output subdirectory `name/`; and the compile edges' source
input paths are the unchanged rebased source paths. -/
theorem c8_toolchain_prefixing (tc : Toolchain) (t : Target)
    (hnd : tc.isDefault = false)
    (hnf : (writeTarget tc t).failed = false) :
    (∀ e, e ∈ (writeTarget tc t).compileEdges →
       ∃ f l, f ∈ t.sources ∧ (classify tc f).lang = some l ∧
         e.rule = tc.name ++ "_" ++ langTool l ∧
         e.ins = [rebase f] ∧
         e.outs = [tc.name ++ "/" ++
           ("obj" ++ dirPart f.dir ++ "/" ++ t.outputName ++ "." ++ f.stem
             ++ ".o")] ∧
         ("source_out_dir", tc.name ++ "/" ++ ("obj" ++ dirPart f.dir)) ∈
           e.edgeVars) ∧
    (t.outputType = .sourceSet →
       ∃ eF, (writeTarget tc t).finalEdge = some eF ∧
         eF.rule = tc.name ++ "_" ++ "stamp" ∧
         eF.outs = [tc.name ++ "/" ++
           ("obj" ++ dirPart t.dir ++ "/" ++ t.name ++ ".stamp")]) := by
  have hsub : tc.subdir = tc.name ++ "/" := by
    unfold Toolchain.subdir
    rw [hnd]
    rfl
  have hrp : tc.rulePfx = tc.name ++ "_" := by
    unfold Toolchain.rulePfx
    rw [hnd]
    rfl
  have hsod : ∀ f : SourceFile,
      sourceOutDir tc f = tc.name ++ "/" ++ ("obj" ++ dirPart f.dir) := by
    intro f
    unfold sourceOutDir
    rw [hsub]
    exact String.append_assoc (tc.name ++ "/") "obj" (dirPart f.dir)
  constructor
  · intro e he
    rw [writeTarget_compileEdges tc t hnf] at he
    obtain ⟨f, hf, hce⟩ := List.mem_filterMap.mp he
    cases hcl : (classify tc f).lang with
    | none =>
        unfold compileEdgeFor at hce
        rw [hcl] at hce
        exact absurd hce (by simp)
    | some l =>
        unfold compileEdgeFor at hce
        rw [hcl] at hce
        have he' := Option.some.inj hce
        subst he'
        refine ⟨f, l, hf, hcl, ?_, rfl, ?_, ?_⟩
        · show tc.rulePfx ++ langTool l = _
          rw [hrp]
        · show [objPath tc t.outputName f] = _
          unfold objPath
          rw [hsod f]
          simp only [String.append_assoc]
        · show _ ∈ [("source_name_part", f.stem),
            ("source_out_dir", sourceOutDir tc f)]
          rw [hsod f]
          simp
  · intro hss
    rw [writeTarget_finalEdge tc t hnf]
    simp only [finalEdgeFor, hss]
    refine ⟨_, rfl, ?_, ?_⟩
    · show tc.rulePfx ++ "stamp" = _
      rw [hrp]
    · show [stampPath tc t] = _
      unfold stampPath
      rw [hsub]
      simp only [String.append_assoc]

/-- C8 witness at the `withpch` toolchain's `no_pch_target`. -/
theorem c8_witness :
    pchTCmsvc.isDefault = false ∧
    (writeTarget pchTCmsvc noPchT).failed = false ∧
    ((∀ e, e ∈ (writeTarget pchTCmsvc noPchT).compileEdges →
       ∃ f l, f ∈ noPchT.sources ∧ (classify pchTCmsvc f).lang = some l ∧
         e.rule = pchTCmsvc.name ++ "_" ++ langTool l ∧
         e.ins = [rebase f] ∧
         e.outs = [pchTCmsvc.name ++ "/" ++
           ("obj" ++ dirPart f.dir ++ "/" ++ noPchT.outputName ++ "." ++
             f.stem ++ ".o")] ∧
         ("source_out_dir",
          pchTCmsvc.name ++ "/" ++ ("obj" ++ dirPart f.dir)) ∈ e.edgeVars) ∧
     (noPchT.outputType = .sourceSet →
       ∃ eF, (writeTarget pchTCmsvc noPchT).finalEdge = some eF ∧
         eF.rule = pchTCmsvc.name ++ "_" ++ "stamp" ∧
         eF.outs = [pchTCmsvc.name ++ "/" ++
           ("obj" ++ dirPart noPchT.dir ++ "/" ++ noPchT.name ++
             ".stamp")])) :=
  ⟨rfl, by decide, c8_toolchain_prefixing pchTCmsvc noPchT rfl (by decide)⟩

/-- C9: for every (non-action) target depending publicly on exactly one
action target, each ordinary compile edge carries an order-only input on the
action's stamp file, and the final edge lists the same stamp as an
order-only input as well. -/
theorem c9_action_stamp_order_only (tc : Toolchain) (t a : Target)
    (ha : a.outputType = .actionForeach)
    (hd : t.publicDeps = .cons a .nil)
    (hdd : t.dataDeps = .nil)
    (hna : t.outputType ≠ .actionForeach)
    (hnf : (writeTarget tc t).failed = false) :
    (∀ e, e ∈ (writeTarget tc t).compileEdges →
       e.orderOnlyIns = [stampPath tc a]) ∧
    (∃ eF, (writeTarget tc t).finalEdge = some eF ∧
       eF.orderOnlyIns = [stampPath tc a]) := by
  have hha : isHardDep a = true := by
    simp [isHardDep, ha]
  have hhard : hardDepStamps tc t.publicDeps = [stampPath tc a] := by
    rw [hd]
    simp [hardDepStamps, hha]
  have hord : finalOrderOnly tc t = [stampPath tc a] := by
    unfold finalOrderOnly
    rw [hd, hdd]
    simp [depOrderOnlyList, primaryOutput, ha]
  constructor
  · intro e he
    rw [writeTarget_compileEdges tc t hnf] at he
    obtain ⟨f, _, hce⟩ := List.mem_filterMap.mp he
    cases hcl : (classify tc f).lang with
    | none =>
        unfold compileEdgeFor at hce
        rw [hcl] at hce
        exact absurd hce (by simp)
    | some l =>
        unfold compileEdgeFor at hce
        rw [hcl] at hce
        have he' := Option.some.inj hce
        subst he'
        exact hhard
  · rw [writeTarget_finalEdge tc t hnf]
    cases hot : t.outputType with
    | actionForeach => exact absurd hot hna
    | executable =>
        simp only [finalEdgeFor, hot]
        exact ⟨_, rfl, hord⟩
    | sharedLibrary =>
        simp only [finalEdgeFor, hot]
        exact ⟨_, rfl, hord⟩
    | staticLibrary =>
        simp only [finalEdgeFor, hot]
        exact ⟨_, rfl, hord⟩
    | loadableModule =>
        simp only [finalEdgeFor, hot]
        exact ⟨_, rfl, hord⟩
    | sourceSet =>
        simp only [finalEdgeFor, hot]
        exact ⟨_, rfl, hord⟩

/-- C9 witness at the `ProductExtensionAndInputDeps` test's shared library
over its action dependency. -/
theorem c9_witness :
    actionT.outputType = .actionForeach ∧
    shlib6T.publicDeps = .cons actionT .nil ∧
    shlib6T.dataDeps = .nil ∧
    shlib6T.outputType ≠ .actionForeach ∧
    (writeTarget testTC shlib6T).failed = false ∧
    ((∀ e, e ∈ (writeTarget testTC shlib6T).compileEdges →
       e.orderOnlyIns = [stampPath testTC actionT]) ∧
     (∃ eF, (writeTarget testTC shlib6T).finalEdge = some eF ∧
       eF.orderOnlyIns = [stampPath testTC actionT])) :=
  ⟨rfl, rfl, rfl, by decide, by decide,
   c9_action_stamp_order_only testTC shlib6T actionT rfl rfl rfl (by decide)
     (by decide)⟩

/-- C10: for a dependency-free source-set target with precompiled headers
configured, under GCC-style PCH tools the stamp edge's inputs are exactly the
ordinary object contributions (the `.gch` outputs do not appear — checked
both structurally and on the `GCCPrecompiledHeaders` target), while under
MSVC-style PCH tools the precompiled object files are appended to the stamp
inputs after the ordinary objects. -/
theorem c10_pch_stamp_inputs (tc : Toolchain) (t : Target) (h : String)
    (ps : SourceFile)
    (hss : t.outputType = .sourceSet)
    (hph : t.pchHeader = some h) (hps : t.pchSource = some ps)
    (hdeps : t.publicDeps = .nil)
    (hnf : (writeTarget tc t).failed = false) :
    (tc.ccPch = .gcc → tc.cxxPch = .gcc →
       ∃ eF, (writeTarget tc t).finalEdge = some eF ∧
         eF.ins = ownObjects tc t) ∧
    (tc.ccPch = .msvc → tc.cxxPch = .msvc →
       ∃ eF, (writeTarget tc t).finalEdge = some eF ∧
         eF.ins = ownObjects tc t ++ msvcPchObjs tc t ∧
         (hasCompiledLang tc t.sources .c = true →
            msvcPchObj tc t ps .c ∈ eF.ins) ∧
         (hasCompiledLang tc t.sources .cxx = true →
            msvcPchObj tc t ps .cxx ∈ eF.ins)) ∧
    ((writeTarget pchTCgcc pchTargetGcc).finalEdge.map
        (fun e => e.ins.contains
          "withpch/obj/build/pch_target.precompile.h-c.gch") = some false) ∧
    ((writeTarget pchTCgcc pchTargetGcc).finalEdge.map
        (fun e => e.ins.contains
          "withpch/obj/build/pch_target.precompile.h-cc.gch") = some false) := by
  have hpc : pchConfigured t = some (h, ps) := by
    unfold pchConfigured
    rw [hph, hps]
  have heq : (writeTarget tc t).finalEdge =
      some { outs := [stampPath tc t]
             rule := tc.rulePfx ++ "stamp"
             ins := ownObjects tc t ++ flatObjsDeps tc t.publicDeps
                      ++ msvcPchObjs tc t
             implicitIns := []
             orderOnlyIns := finalOrderOnly tc t
             edgeVars := [] } := by
    rw [writeTarget_finalEdge tc t hnf]
    simp only [finalEdgeFor, hss]
  refine ⟨?_, ?_, by decide, by decide⟩
  · intro hgc hgcxx
    have hmc : msvcPchObjsFor tc t .c = [] := by
      unfold msvcPchObjsFor
      rw [show tc.pchModeFor .c = .gcc from hgc, hpc]
      cases hasCompiledLang tc t.sources .c <;> simp
    have hmcxx : msvcPchObjsFor tc t .cxx = [] := by
      unfold msvcPchObjsFor
      rw [show tc.pchModeFor .cxx = .gcc from hgcxx, hpc]
      cases hasCompiledLang tc t.sources .cxx <;> simp
    refine ⟨_, heq, ?_⟩
    show ownObjects tc t ++ flatObjsDeps tc t.publicDeps
        ++ msvcPchObjs tc t = ownObjects tc t
    rw [hdeps, flatObjsDeps_nil]
    unfold msvcPchObjs
    rw [hmc, hmcxx]
    simp
  · intro hmc hmcxx
    have hC : msvcPchObjsFor tc t .c =
        if hasCompiledLang tc t.sources .c then [msvcPchObj tc t ps .c]
        else [] := by
      unfold msvcPchObjsFor
      rw [show tc.pchModeFor .c = .msvc from hmc, hpc]
    have hCxx : msvcPchObjsFor tc t .cxx =
        if hasCompiledLang tc t.sources .cxx then [msvcPchObj tc t ps .cxx]
        else [] := by
      unfold msvcPchObjsFor
      rw [show tc.pchModeFor .cxx = .msvc from hmcxx, hpc]
    refine ⟨_, heq, ?_, ?_, ?_⟩
    · show ownObjects tc t ++ flatObjsDeps tc t.publicDeps
          ++ msvcPchObjs tc t = ownObjects tc t ++ msvcPchObjs tc t
      rw [hdeps, flatObjsDeps_nil]
      simp
    · intro hA
      show msvcPchObj tc t ps .c ∈
        ownObjects tc t ++ flatObjsDeps tc t.publicDeps ++ msvcPchObjs tc t
      refine List.mem_append_right _ ?_
      unfold msvcPchObjs
      rw [hC, if_pos hA]
      exact List.mem_append_left _ (List.mem_singleton.mpr rfl)
    · intro hB
      show msvcPchObj tc t ps .cxx ∈
        ownObjects tc t ++ flatObjsDeps tc t.publicDeps ++ msvcPchObjs tc t
      refine List.mem_append_right _ ?_
      unfold msvcPchObjs
      rw [hCxx, if_pos hB]
      exact List.mem_append_right _ (List.mem_singleton.mpr rfl)

/-- C10 witness at the `GCCPrecompiledHeaders` test's `pch_target`. -/
theorem c10_witness :
    pchTargetGcc.outputType = .sourceSet ∧
    pchTargetGcc.pchHeader = some "build/precompile.h" ∧
    pchTargetGcc.pchSource = some ⟨"build", "precompile", "h"⟩ ∧
    pchTargetGcc.publicDeps = .nil ∧
    (writeTarget pchTCgcc pchTargetGcc).failed = false ∧
    ((pchTCgcc.ccPch = .gcc → pchTCgcc.cxxPch = .gcc →
       ∃ eF, (writeTarget pchTCgcc pchTargetGcc).finalEdge = some eF ∧
         eF.ins = ownObjects pchTCgcc pchTargetGcc) ∧
     (pchTCgcc.ccPch = .msvc → pchTCgcc.cxxPch = .msvc →
       ∃ eF, (writeTarget pchTCgcc pchTargetGcc).finalEdge = some eF ∧
         eF.ins = ownObjects pchTCgcc pchTargetGcc ++
           msvcPchObjs pchTCgcc pchTargetGcc ∧
         (hasCompiledLang pchTCgcc pchTargetGcc.sources .c = true →
            msvcPchObj pchTCgcc pchTargetGcc ⟨"build", "precompile", "h"⟩ .c ∈
              eF.ins) ∧
         (hasCompiledLang pchTCgcc pchTargetGcc.sources .cxx = true →
            msvcPchObj pchTCgcc pchTargetGcc ⟨"build", "precompile", "h"⟩
                .cxx ∈ eF.ins)) ∧
     ((writeTarget pchTCgcc pchTargetGcc).finalEdge.map
        (fun e => e.ins.contains
          "withpch/obj/build/pch_target.precompile.h-c.gch") = some false) ∧
     ((writeTarget pchTCgcc pchTargetGcc).finalEdge.map
        (fun e => e.ins.contains
          "withpch/obj/build/pch_target.precompile.h-cc.gch") =
        some false)) :=
  ⟨rfl, rfl, rfl, rfl, by decide,
   c10_pch_stamp_inputs pchTCgcc pchTargetGcc "build/precompile.h"
     ⟨"build", "precompile", "h"⟩ rfl rfl rfl rfl (by decide)⟩

end GN
